import Mathlib

/-!
Verification development for the rax-ftp-client repository.

The Rust sources are shallowly embedded as Lean definitions.  Strings are
modelled as `List Char` (`Str`); the sources only ever index and slice at
ASCII positions in the claims under study, so byte positions and character
positions coincide and `String::len` is modelled by list length.  Each
definition's doc comment names the Rust item it embeds.
-/

set_option maxRecDepth 4000

deriving instance DecidableEq for Except

namespace RaxFtp

/-- Strings of the embedding: a Rust `String` / `&str` as its character list. -/
abbrev Str := List Char

/-- Shorthand turning a Lean string literal into the `Str` model. -/
def lc (x : String) : Str := x.data

/-- Model of Rust `char::is_whitespace` (the Unicode `White_Space` property),
used by `str::trim`; the listed code points are exactly that property's set. -/
def rustIsWhitespace (c : Char) : Bool :=
  let n := c.toNat
  (9 ≤ n && n ≤ 13) || n = 32 || n = 0x85 || n = 0xA0 || n = 0x1680 ||
  (0x2000 ≤ n && n ≤ 0x200A) || n = 0x2028 || n = 0x2029 || n = 0x202F ||
  n = 0x205F || n = 0x3000

/-- Model of Rust `str::trim`: drop Unicode whitespace from both ends. -/
def rustTrim (s : Str) : Str :=
  ((s.dropWhile rustIsWhitespace).reverse.dropWhile rustIsWhitespace).reverse

/-- Decimal value of a digit-only character list (helper for `parseU16`). -/
def digitsVal (s : Str) : Nat :=
  s.foldl (fun acc c => acc * 10 + (c.toNat - 48)) 0

/-- Model of Rust `str::parse::<u16>()`: an optional leading `+`, then one or
more ASCII digits, value at most 65535. -/
def parseU16 (s : Str) : Option Nat :=
  let body := match s with
    | '+' :: rest => rest
    | other => other
  if body ≠ [] ∧ body.all Char.isDigit ∧ digitsVal body ≤ 65535 then
    some (digitsVal body)
  else
    none

/-- Embedding of `FtpResponse` (src/responses/parser.rs). -/
structure FtpResponse where
  code : Nat
  message : Str
  deriving DecidableEq, Repr

/-- Embedding of `parse_response` (src/responses/parser.rs).  The Rust code
trims the input, rejects empty and short inputs, parses the first three
characters with `str::parse::<u16>`, checks the fourth character is a space
or dash, and takes everything after the fourth character as the message. -/
def parse_response (response : Str) : Except Str FtpResponse :=
  let r := rustTrim response
  if r.isEmpty then .error (lc "Empty response")
  else if r.length < 4 then .error (lc "Response too short")
  else
    match parseU16 (r.take 3) with
    | none => .error (lc "Invalid response code")
    | some code =>
      let separator := (r.get? 3).getD ' '
      if separator ≠ ' ' ∧ separator ≠ '-' then
        .error (lc "Invalid response format: missing separator after code")
      else
        .ok ⟨code, if r.length > 4 then r.drop 4 else []⟩

/-- Decimal rendering of a natural number, as Rust `Display` for `u16`. -/
def natStr (n : Nat) : Str := (Nat.repr n).data

/-- Embedding of `impl Display for FtpResponse` (src/responses/parser.rs):
the response is rendered as the code, a space, and the message. -/
def displayFtp (r : FtpResponse) : Str := natStr r.code ++ ' ' :: r.message

/-- Success projection of an `Except` result (no partial results on error). -/
def toOpt {ε α : Type} (e : Except ε α) : Option α :=
  match e with
  | .ok a => some a
  | .error _ => none

/-- The amended C5 reading of `parse_response`, written from the corrected
claim text: trim first, then require trimmed length at least 4, a Rust-`u16`
numeral in the first 3 characters and a space or dash 4th character; the
message is everything after the 4th character of the trimmed input. -/
def claimC5ok (input : Str) : Option FtpResponse :=
  let t := rustTrim input
  if t.length ≥ 4 then
    match parseU16 (t.take 3) with
    | some v =>
      if t.get? 3 = some ' ' ∨ t.get? 3 = some '-' then
        some ⟨v, t.drop 4⟩
      else none
    | none => none
  else none

/-- Errors of the embedding, the `RaxFtpClientError` variants reached by the
code under study (src/error.rs; `InvalidConfigValue` appears in client.rs). -/
inductive Err where
  | connectionLost (msg : Str)
  | notConnected (msg : Str)
  | ioError
  | dataConnectionFailed (msg : Str)
  | invalidConfigValue (msg : Str)
  | fileNotFound (code : Nat) (msg : Str)
  | transferFailed (code : Nat) (msg : Str)
  deriving DecidableEq, Repr

/-- One item of the incoming control-channel byte stream, pre-split into the
lines that successive `BufRead::read_line` calls deliver: a proper line, a
connection-aborted/unexpected-EOF style I/O failure, or another I/O failure.
An exhausted item list models the peer having closed the socket — at that
point `read_line` keeps returning `Ok(0)`, i.e. an empty line.  Write
failures are not modelled: a send succeeds whenever the socket is present. -/
inductive LineItem where
  | ln (s : Str)
  | errLost
  | errIo
  deriving DecidableEq, Repr

/-- Embedding of `CommandConnection` (src/connection/command.rs): the optional
socket carries the remaining incoming items, and `sent` logs every write made
on the control channel (the spec's send counter).  Host, port, timeout and
retry count play no role in the claims under study and are omitted. -/
structure Conn where
  stream : Option (List LineItem)
  sent : List Str
  deriving DecidableEq, Repr

/-- Observable actions of a client run, in order of occurrence. -/
inductive Event where
  | ctrlWrite (s : Str)
  | ctrlRead (s : Str)
  | dcBind
  | dcAccept
  | dcConnect
  | dcSend
  | dcRecv
  deriving DecidableEq, Repr

/-- Boolean `starts_with`: `beginsWith s p` holds when `p` is an initial
segment of `s` (model of Rust `str::starts_with`). -/
def beginsWith : Str → Str → Bool
  | _, [] => true
  | [], _ :: _ => false
  | c :: s, p :: pre => c = p && beginsWith s pre

/-- Embedding of `CommandConnection::is_connected`. -/
def Conn.is_connected (c : Conn) : Bool := c.stream.isSome

/-- Embedding of `CommandConnection::read_line`.  With no socket it fails
`NotConnected`; an aborted/EOF-kind I/O error drops the socket and fails
`ConnectionLost`; any other I/O error is returned without dropping the
socket; at end of stream `BufRead::read_line` returns `Ok(0)`, modelled as
an empty line. -/
def Conn.read_line (c : Conn) : Except Err Str × Conn × List Event :=
  match c.stream with
  | none => (.error (.notConnected (lc "Not connected")), c, [])
  | some [] => (.ok [], c, [.ctrlRead []])
  | some (.ln l :: rest) => (.ok l, { c with stream := some rest }, [.ctrlRead l])
  | some (.errLost :: _) =>
      (.error (.connectionLost (lc "Connection lost while reading")),
        { c with stream := none }, [])
  | some (.errIo :: rest) => (.error .ioError, { c with stream := some rest }, [])

/-- CRLF termination applied by `send_command`: append `\r\n` unless the
command already ends with it. -/
def fmtCRLF (command : Str) : Str :=
  if lc "\r\n" <:+ command then command else command ++ lc "\r\n"

/-- Embedding of `CommandConnection::send_command` composed with `send_bytes`:
CRLF is appended when missing, sending with no socket fails `ConnectionLost`,
otherwise the bytes are written (writes are logged in `sent`). -/
def Conn.send_command (c : Conn) (command : Str) : Except Err Unit × Conn × List Event :=
  let formatted := fmtCRLF command
  match c.stream with
  | none => (.error (.connectionLost (lc "Not connected")), c, [])
  | some _ =>
      (.ok (), { c with sent := c.sent ++ [formatted] }, [.ctrlWrite formatted])

/-- Loop body of `CommandConnection::read_response` (src/connection/command.rs,
lines 190–224), made total with an iteration budget: `none` means the loop has
not returned after `fuel` iterations (so an unbounded budget that never
returns models divergence).  `acc` is the accumulated response, `firstLine`
and `expected` are the loop's `first_line` and `expected_code` variables. -/
def readResponseLoop :
    Nat → Conn → Str → Bool → Option Str → Option (Except Err Str × Conn × List Event)
  | 0, _, _, _, _ => none
  | fuel + 1, c, acc, firstLine, expected =>
    match c.read_line with
    | (.error e, c', ev) => some (.error e, c', ev)
    | (.ok line, c', ev) =>
      let acc' := acc ++ line
      let cont := fun exp =>
        match readResponseLoop fuel c' acc' false exp with
        | none => none
        | some (r, c'', ev') => some (r, c'', ev ++ ev')
      if firstLine then
        if line.length ≥ 4 then
          let codePart := line.take 3
          let separator := (line.get? 3).getD ' '
          if separator = ' ' then some (.ok acc', c', ev)
          else if separator = '-' then cont (some codePart)
          else cont none
        else cont none
      else
        match expected with
        | some code =>
          if line.length ≥ 4 ∧ beginsWith line code ∧ line.get? 3 = some ' ' then
            some (.ok acc', c', ev)
          else cont (some code)
        | none => cont none

/-- Iteration budget sufficient for every terminating `read_response` call:
each iteration that is not the final one consumes one stream item. -/
def Conn.fuel (c : Conn) : Nat :=
  match c.stream with
  | some items => items.length + 1
  | none => 1

/-- Embedding of `CommandConnection::read_response`: run the loop with a
budget that any terminating execution fits in; `none` still means the loop
never returns. -/
def Conn.read_response (c : Conn) : Option (Except Err Str × Conn × List Event) :=
  readResponseLoop c.fuel c [] true none

/-- The terminator test of the multi-line read loop: the line is at least 4
characters, starts with the expected 3-digit code, and its 4th character is a
space. -/
def isTermLine (code line : Str) : Bool :=
  line.length ≥ 4 && beginsWith line code && line.get? 3 = some ' '



/-- Embedding of `ClientState` (src/client.rs). -/
inductive ClientState where
  | disconnected
  | connected
  | authenticated
  deriving DecidableEq, Repr

/-- Embedding of `DataMode` (src/client.rs). -/
inductive DataMode where
  | active
  | passive
  deriving DecidableEq, Repr

/-- Embedding of `DataConnectionInfo` (src/client.rs). -/
structure DataConnectionInfo where
  mode : DataMode
  host : Str
  port : Nat
  deriving DecidableEq, Repr

/-- The slice of `ClientConfig` the embedded handlers read.  No handler ever
writes the configuration; it is carried so that frame properties over it are
meaningful. -/
structure Cfg where
  localDirectory : Str
  deriving DecidableEq, Repr

/-- Embedding of `RaxFtpClient` (src/client.rs). -/
structure Client where
  connection : Conn
  state : ClientState
  config : Cfg
  currentDataMode : DataMode
  dataConnectionInfo : Option DataConnectionInfo
  deriving DecidableEq, Repr

/-- Embedding of `is_authentication_success` (src/responses/status_codes.rs). -/
def is_authentication_success (code : Nat) : Bool := code = 230

/-- Embedding of `RaxFtpClient::update_state_from_response` (src/client.rs,
lines 483–519).  The Rust `match` arm `230 if is_authentication_success(..)`
falls through to the catch-all arm when its guard fails. -/
def update_state_from_response (c : Client) (response : FtpResponse) : Client :=
  if response.code = 230 then
    if is_authentication_success response.code then
      { c with state := .authenticated }
    else c
  else if response.code = 530 then
    c
  else if response.code = 221 then
    if ¬ c.connection.is_connected then
      { c with
          state := .disconnected
          dataConnectionInfo := none
          currentDataMode := .passive }
    else
      { c with state := .connected }
  else c

/-- Result type of an embedded client operation: the outcome, the client after
the call, and the observable events, or `none` when the operation diverges
(its `read_response` loop never returns). -/
abbrev Res (α : Type) := Option (Except Err α × Client × List Event)

/-- Sequencing with Rust `?` semantics: an error propagates immediately,
divergence propagates, and event logs concatenate. -/
def andThen {α β : Type} (r : Res α) (f : α → Client → Res β) : Res β :=
  match r with
  | none => none
  | some (.error e, c, ev) => some (.error e, c, ev)
  | some (.ok a, c, ev) =>
    match f a c with
    | none => none
    | some (out, c', ev') => some (out, c', ev ++ ev')

/-- Embedding of `RaxFtpClient::send_command` (delegates to the connection). -/
def sendCommandC (c : Client) (command : Str) : Res Unit :=
  match c.connection.send_command command with
  | (out, conn', ev) => some (out, { c with connection := conn' }, ev)

/-- Embedding of `RaxFtpClient::read_response` (src/client.rs, lines 462–480):
read the raw response, and when it parses, run the state-machine update; the
raw text is returned even when parsing fails. -/
def read_responseC (c : Client) : Res Str :=
  match c.connection.read_response with
  | none => none
  | some (.error e, conn', ev) => some (.error e, { c with connection := conn' }, ev)
  | some (.ok raw, conn', ev) =>
    let c1 := { c with connection := conn' }
    match parse_response raw with
    | .ok parsed => some (.ok raw, update_state_from_response c1 parsed, ev)
    | .error _ => some (.ok raw, c1, ev)

/-- Split a character list on a separator character. -/
def splitOnAux (sep : Char) : Str → Str → List Str
  | [], cur => [cur.reverse]
  | c :: rest, cur =>
    if c = sep then cur.reverse :: splitOnAux sep rest []
    else splitOnAux sep rest (c :: cur)

/-- Split a character list on a separator character (model of `str::split`). -/
def splitOn (sep : Char) (s : Str) : List Str := splitOnAux sep s []

/-- One IPv4 octet as accepted by the std `SocketAddr` parser: decimal
digits, no leading zero, value at most 255. -/
def parseOctet (s : Str) : Option Nat :=
  if s ≠ [] ∧ s.all Char.isDigit ∧ (s.length = 1 ∨ s.head? ≠ some '0') ∧
      digitsVal s ≤ 255 then
    some (digitsVal s)
  else none

/-- Model of `str::parse::<std::net::SocketAddr>()` restricted to the
`a.b.c.d:port` IPv4 form, which is the only form the client's simplified
`ip:port` encoding produces; IPv6 bracket forms are not modelled.  On success
it returns the host text (already canonical, since leading zeros are
rejected) and the port value, matching `addr.ip().to_string()` and
`addr.port()`. -/
def parseSocketAddr (s : Str) : Option (Str × Nat) :=
  match splitOn ':' s with
  | [ip, port] =>
    (match splitOn '.' ip with
     | [a, b, c, d] =>
       (match parseOctet a, parseOctet b, parseOctet c, parseOctet d with
        | some _, some _, some _, some _ =>
          if port ≠ [] ∧ port.all Char.isDigit ∧ digitsVal port ≤ 65535 then
            some (ip, digitsVal port)
          else none
        | _, _, _, _ => none)
     | _ => none)
  | _ => none

/-- Embedding of the `DataConnectionMode` union (src/connection/data.rs):
Active holds listener/stream presence and the bound local port, Passive holds
stream presence and the server address. -/
inductive DCMode where
  | active (listener : Bool) (stream : Bool) (localPort : Option Nat)
  | passive (stream : Bool) (serverHost : Str) (serverPort : Nat)
  deriving DecidableEq, Repr

/-- Embedding of `DataConnection` (src/connection/data.rs); the timeout field
plays no role in the claims. -/
structure DataConnection where
  mode : DCMode
  deriving DecidableEq, Repr

/-- Environment outcomes for the operations whose result depends on the
operating system or the peer: socket binds, accepts, connects, the upload
file checks, and the data-channel payload phases.  The payload phases
(upload, directory listing) are abstracted to single events with an outcome
drawn from here, since no claim under study concerns their internals. -/
structure World where
  bindOk : Bool
  boundPort : Nat
  acceptOk : Bool
  connectOk : Bool
  fileOk : Bool
  uploadOk : Bool
  listing : Option (List Str)
  deriving DecidableEq, Repr

/-- Embedding of `DataConnection::new_port_mode` (src/connection/data.rs,
lines 78–113): the port-range scan either binds a listener (outcome and port
from the `World`) or fails `DataConnectionFailed`. -/
def new_port_mode (w : World) : Except Err DataConnection × List Event :=
  if w.bindOk then
    (.ok ⟨.active true false (some w.boundPort)⟩, [.dcBind])
  else
    (.error (.dataConnectionFailed (lc "No available ports in range")), [])

/-- Embedding of `DataConnection::new_passive_mode` (src/connection/data.rs,
lines 116–130): records the server address without connecting; in the source
this constructor always returns `Ok`. -/
def new_passive_mode (serverHost : Str) (serverPort : Nat) : DataConnection :=
  ⟨.passive false serverHost serverPort⟩

/-- Embedding of `DataConnection::get_port_command` (src/connection/data.rs,
lines 133–154).  The Active arm uses the fixed `127.0.0.1` host of the
source. -/
def get_port_command (dc : DataConnection) : Except Err Str :=
  match dc.mode with
  | .active _ _ (some port) => .ok (lc "PORT 127.0.0.1:" ++ natStr port)
  | .active _ _ none => .error (.dataConnectionFailed (lc "No local address available"))
  | .passive _ _ _ =>
    .error (.dataConnectionFailed (lc "PORT command not applicable in passive mode"))

/-- Embedding of `DataConnection::accept_connection` (src/connection/data.rs,
lines 157–199).  The accept attempt is an event; its outcome comes from the
`World`.  The Passive arm fails before touching any socket. -/
def accept_connection (dc : DataConnection) (w : World) :
    Except Err DataConnection × List Event :=
  match dc.mode with
  | .active true _ la =>
    if w.acceptOk then (.ok ⟨.active true true la⟩, [.dcAccept])
    else (.error (.dataConnectionFailed (lc "Failed to accept connection")), [.dcAccept])
  | .active false _ _ =>
    (.error (.dataConnectionFailed (lc "No listener available")), [])
  | .passive _ _ _ =>
    (.error (.dataConnectionFailed
      (lc "accept_connection not applicable in passive mode. Use connect_to_server instead.")),
      [])

/-- Embedding of `DataConnection::connect_to_server` (src/connection/data.rs,
lines 202–244).  The Active arm fails before touching any socket. -/
def connect_to_server (dc : DataConnection) (w : World) :
    Except Err DataConnection × List Event :=
  match dc.mode with
  | .passive _ host port =>
    (match parseSocketAddr (host ++ ':' :: natStr port) with
     | none => (.error (.dataConnectionFailed (lc "Invalid server address")), [])
     | some _ =>
       if w.connectOk then (.ok ⟨.passive true host port⟩, [.dcConnect])
       else (.error (.dataConnectionFailed (lc "Failed to connect to server")), [.dcConnect]))
  | .active _ _ _ =>
    (.error (.dataConnectionFailed
      (lc "connect_to_server not applicable in active mode. Use accept_connection instead.")),
      [])

/-- Display text of an error (`impl Display for RaxFtpClientError`,
src/error.rs), needed where the source interpolates an error into a message.
`InvalidConfigValue` is constructed in client.rs but missing from the enum in
error.rs (the crate does not compile as given); its display is nominal. -/
def errText : Err → Str
  | .connectionLost m => lc "Connection lost: " ++ m
  | .notConnected m => lc "Not connected: " ++ m
  | .ioError => lc "IO error"
  | .dataConnectionFailed m => lc "Data connection failed: " ++ m
  | .invalidConfigValue m => lc "Invalid config value: " ++ m
  | .fileNotFound code m => lc "File not found (" ++ natStr code ++ lc "): " ++ m
  | .transferFailed code m => lc "Transfer failed (" ++ natStr code ++ lc "): " ++ m

/-- Prepend already-logged events to a pending result. -/
def seqEv {α : Type} (ev : List Event) (r : Res α) : Res α :=
  match r with
  | none => none
  | some (out, c, ev') => some (out, c, ev ++ ev')

/-- Embedding of `RaxFtpClient::parse_pasv_response` (src/client.rs, lines
171–197): locate the first `(` and the first `)`, slice between them, and
parse the slice as a socket address.  When the first `)` precedes the `(`,
the Rust byte-range slice would panic; the model renders that corner as an
empty slice, which fails the address parse. -/
def parse_pasv_response (response : Str) : Option DataConnectionInfo :=
  match response.findIdx? (· = '(') with
  | none => none
  | some start =>
    match response.findIdx? (· = ')') with
    | none => none
    | some stop =>
      match parseSocketAddr ((response.drop (start + 1)).take (stop - (start + 1))) with
      | some (ip, port) => some ⟨.passive, ip, port⟩
      | none => none

/-- Embedding of `RaxFtpClient::handle_port_command` (src/client.rs, lines
117–139): validate the address, send `PORT`, read the reply, and switch to
Active mode only when the reply starts with `200`. -/
def handle_port_command (c : Client) (addr : Str) : Res Str :=
  match parseSocketAddr addr with
  | none =>
    some (.error (.invalidConfigValue (lc "Invalid address format. Use IP:PORT")), c, [])
  | some (ip, port) =>
    andThen (sendCommandC c (lc "PORT " ++ addr)) fun _ c1 =>
    andThen (read_responseC c1) fun response c2 =>
    if beginsWith response (lc "200") then
      some (.ok response,
        { c2 with
            currentDataMode := .active
            dataConnectionInfo := some ⟨.active, ip, port⟩ }, [])
    else
      some (.ok response, c2, [])

/-- Embedding of `RaxFtpClient::handle_pasv_command` (src/client.rs, lines
142–168): send `PASV`, read the reply, and on a `227` reply either record the
parsed passive address or fail `DataConnectionFailed` when it does not parse. -/
def handle_pasv_command (c : Client) : Res Str :=
  andThen (sendCommandC c (lc "PASV")) fun _ c1 =>
  andThen (read_responseC c1) fun response c2 =>
  if beginsWith response (lc "227") then
    match parse_pasv_response response with
    | some info =>
      some (.ok response,
        { c2 with
            currentDataMode := .passive
            dataConnectionInfo := some info }, [])
    | none =>
      some (.error (.dataConnectionFailed (lc "Failed to parse PASV response")), c2, [])
  else
    some (.ok response, c2, [])

/-- The retry loop of `RaxFtpClient::establish_passive_connection`
(src/client.rs, lines 219–267); the argument counts remaining attempts, so
the source's `attempt < MAX_RETRIES` becomes `n ≥ 1` after splitting one
attempt off.  Reaching 0 is the for-loop running off its end. -/
def establish_passive_loop : Nat → Client → Res DataConnection
  | 0, c =>
    some (.error (.dataConnectionFailed
      (lc "Failed to establish passive connection after retries. Please try PORT command manually.")),
      c, [])
  | n + 1, c =>
    match handle_pasv_command c with
    | none => none
    | some (.ok response, c1, ev) =>
      if beginsWith response (lc "227") then
        match c1.dataConnectionInfo with
        | some info => some (.ok (new_passive_mode info.host info.port), c1, ev)
        | none => seqEv ev (establish_passive_loop n c1)
      else if n ≥ 1 then
        seqEv ev (establish_passive_loop n c1)
      else
        some (.error (.dataConnectionFailed
          (lc "PASV command failed after retries. Please try PORT command manually.")), c1, ev)
    | some (.error e, c1, ev) =>
      if n ≥ 1 then seqEv ev (establish_passive_loop n c1)
      else some (.error e, c1, ev)

/-- Embedding of `RaxFtpClient::establish_passive_connection` (src/client.rs,
lines 212–268): reuse recorded address info when present, otherwise run the
PASV retry loop. -/
def establish_passive_connection (c : Client) : Res DataConnection :=
  match c.dataConnectionInfo with
  | some info => some (.ok (new_passive_mode info.host info.port), c, [])
  | none => establish_passive_loop 3 c

/-- Embedding of `RaxFtpClient::establish_data_connection` (src/client.rs,
lines 199–204) together with `establish_active_connection`. -/
def establish_data_connection (c : Client) (w : World) : Res DataConnection :=
  match c.currentDataMode with
  | .active =>
    match new_port_mode w with
    | (out, ev) => some (out, c, ev)
  | .passive => establish_passive_connection c

/-- The retry loop of `RaxFtpClient::auto_establish_pasv_mode` (src/client.rs,
lines 271–299); the argument counts remaining attempts, and reaching 0 yields
the after-loop error. -/
def auto_establish_pasv_loop : Nat → Client → Res Unit
  | 0, c =>
    some (.error (.dataConnectionFailed
      (lc "Failed to auto-establish PASV mode after 3 retries")), c, [])
  | n + 1, c =>
    match handle_pasv_command c with
    | none => none
    | some (.ok response, c1, ev) =>
      if beginsWith response (lc "227") then
        some (.ok (), { c1 with currentDataMode := .passive }, ev)
      else seqEv ev (auto_establish_pasv_loop n c1)
    | some (.error _, c1, ev) => seqEv ev (auto_establish_pasv_loop n c1)

/-- Embedding of `upload_file_with_progress` (src/transfer/upload.rs): the
chunked upload is abstracted to one data-send event whose outcome comes from
the `World`; no claim under study concerns its internals. -/
def upload_file_with_progress (w : World) : Except Err Unit × List Event :=
  if w.uploadOk then (.ok (), [.dcSend])
  else (.error (.transferFailed 550 (lc "Failed to read file")), [.dcSend])

/-- Embedding of `read_directory_listing` (src/transfer/listing.rs): the
chunked read-until-close is abstracted to one data-receive event with the
entry list (or failure) drawn from the `World`. -/
def read_directory_listing (w : World) : Except Err (List Str) × List Event :=
  match w.listing with
  | some entries => (.ok entries, [.dcRecv])
  | none => (.error (.transferFailed 426 (lc "Failed to read directory listing")), [.dcRecv])

/-- Embedding of `validate_upload_file` (src/transfer/upload.rs, lines
107–131): the three local-file checks are abstracted to one outcome from the
`World`, failing with the source's file-not-found error. -/
def validate_upload_file (w : World) (path : Str) : Except Err Unit :=
  if w.fileOk then .ok ()
  else .error (.fileNotFound 550 (lc "Local file '" ++ path ++ lc "' does not exist"))

/-- The Active-mode PORT exchange block duplicated verbatim in the LIST and
STOR handlers (src/client.rs, lines 321–330 and 410–419): in Active mode
obtain the channel's PORT command, send it and read the reply; a non-`200`
reply makes the handler return early with a failure text (`some text`). -/
def port_phase (c : Client) (dc : DataConnection) : Res (Option Str) :=
  if c.currentDataMode = .active then
    match get_port_command dc with
    | .error e => some (.error e, c, [])
    | .ok portCommand =>
      andThen (sendCommandC c portCommand) fun _ c1 =>
      andThen (read_responseC c1) fun portResponse c2 =>
      if ¬ beginsWith portResponse (lc "200") then
        some (.ok (some (lc "PORT command failed: " ++ portResponse)), c2, [])
      else
        some (.ok none, c2, [])
  else
    some (.ok none, c, [])

/-- The accept-or-connect block duplicated verbatim in the LIST and STOR
handlers (src/client.rs, lines 336–340 and 435–439): establish the data
stream by accepting in Active mode or connecting in Passive mode. -/
def establish_stream (c : Client) (dc : DataConnection) (w : World) :
    Res DataConnection :=
  if c.currentDataMode = .active then
    match accept_connection dc w with
    | (out, ev) => some (out, c, ev)
  else
    match connect_to_server dc w with
    | (out, ev) => some (out, c, ev)

/-- Embedding of `RaxFtpClient::handle_list_command` (src/client.rs, lines
302–358): optional auto-PASV, create the data connection, an Active-mode PORT
exchange, send `LIST`, then immediately accept/connect, read the listing, and
read one final reply (also on listing failure). -/
def handle_list_command (c : Client) (w : World) : Res Str :=
  let afterAuto : Res Unit :=
    if c.dataConnectionInfo = none then
      match auto_establish_pasv_loop 3 c with
      | none => none
      | some (.error e, c1, ev) =>
        some (.error (.dataConnectionFailed
          (lc "425 Can't open data connection. Auto-PASV failed: " ++ errText e ++
            lc ". Try running 'port <your_ip>:<port>' command manually.")), c1, ev)
      | some (.ok _, c1, ev) => some (.ok (), c1, ev)
    else
      some (.ok (), c, [])
  andThen afterAuto fun _ c1 =>
  andThen (establish_data_connection c1 w) fun dc c2 =>
  andThen (port_phase c2 dc) fun early c5 =>
  match early with
  | some failText => some (.ok failText, c5, [])
  | none =>
    andThen (sendCommandC c5 (lc "LIST")) fun _ c6 =>
    andThen (establish_stream c6 dc w) fun _ c7 =>
    match read_directory_listing w with
    | (.ok _, ev) => seqEv ev (read_responseC c7)
    | (.error e, ev) =>
      match read_responseC c7 with
      | none => none
      | some (_, c8, ev') => some (.error e, c8, ev ++ ev')

/-- Embedding of `RaxFtpClient::handle_stor_command` (src/client.rs, lines
400–454): validate the local file, create the data connection, an Active-mode
PORT exchange, send `STOR`, require a `150` preliminary reply, only then
accept/connect, upload, and read one final reply (also on upload failure). -/
def handle_stor_command (c : Client) (w : World) (filename : Str) : Res Str :=
  let localPath := c.config.localDirectory ++ '/' :: filename
  match validate_upload_file w localPath with
  | .error e => some (.error e, c, [])
  | .ok _ =>
    andThen (establish_data_connection c w) fun dc c1 =>
    andThen (port_phase c1 dc) fun early c4 =>
    match early with
    | some failText => some (.ok failText, c4, [])
    | none =>
      andThen (sendCommandC c4 (lc "STOR " ++ filename)) fun _ c5 =>
      andThen (read_responseC c5) fun storResponse c6 =>
      if ¬ beginsWith storResponse (lc "150") then
        some (.ok (lc "STOR command failed: " ++ storResponse), c6, [])
      else
        andThen (establish_stream c6 dc w) fun _ c7 =>
        match upload_file_with_progress w with
        | (.ok _, ev) => seqEv ev (read_responseC c7)
        | (.error e, ev) =>
          match read_responseC c7 with
          | none => none
          | some (_, c8, ev') => some (.error e, c8, ev ++ ev')

/-- Embedding of `FtpCommand` (src/commands/command.rs). -/
inductive FtpCommand where
  | quit
  | user (name : Str)
  | pass (pw : Str)
  | logout
  | stor (filename : Str)
  | retr (filename : Str)
  | del (filename : Str)
  | list
  | pwd
  | cwd (path : Str)
  | port (addr : Str)
  | pasv
  | rax
  | help
  | unknown (cmd : Str)
  deriving DecidableEq, Repr

/-- Embedding of `FtpCommand::to_ftp_string` (src/commands/command.rs). -/
def to_ftp_string : FtpCommand → Str
  | .quit => lc "QUIT"
  | .user name => lc "USER " ++ name
  | .pass pw => lc "PASS " ++ pw
  | .logout => lc "LOGOUT"
  | .stor filename => lc "STOR " ++ filename
  | .retr filename => lc "RETR " ++ filename
  | .del filename => lc "DEL " ++ filename
  | .list => lc "LIST"
  | .pwd => lc "PWD"
  | .cwd path => lc "CWD " ++ path
  | .port addr => lc "PORT " ++ addr
  | .pasv => lc "PASV"
  | .rax => lc "RAX"
  | .help => lc "HELP"
  | .unknown cmd => cmd

/-- Embedding of `RaxFtpClient::execute_command` (src/client.rs, lines
101–114): STOR, LIST, PORT and PASV go to their handlers; every other
command — including RETR — is sent as-is and one reply is read. -/
def execute_command (c : Client) (w : World) : FtpCommand → Res Str
  | .stor filename => handle_stor_command c w filename
  | .list => handle_list_command c w
  | .port addr => handle_port_command c addr
  | .pasv => handle_pasv_command c
  | cmd =>
    andThen (sendCommandC c (to_ftp_string cmd)) fun _ c1 =>
    read_responseC c1


/-- Establishment events: a data-stream accept or connect attempt. -/
def isEst : Event → Bool
  | .dcAccept => true
  | .dcConnect => true
  | _ => false

/-- Control-channel events. -/
def isCtrlEvent : Event → Bool
  | .ctrlWrite _ => true
  | .ctrlRead _ => true
  | _ => false

/-- Substring test: `containsSub needle hay` holds when `needle` occurs
contiguously inside `hay`. -/
def containsSub (needle : Str) : Str → Bool
  | [] => needle.isEmpty
  | c :: rest => beginsWith (c :: rest) needle || containsSub needle rest

/-- The passthrough commands outside the claim's login phase: every command
that `execute_command` sends verbatim except username, password, quit and
unrecognized input. -/
def isPassthroughNonLogin : FtpCommand → Bool
  | .logout => true
  | .retr _ => true
  | .del _ => true
  | .pwd => true
  | .cwd _ => true
  | .rax => true
  | .help => true
  | _ => false

/-- Environment used by the concrete runs below: binds, accepts and connects
succeed, the local file is fine, and the listing returns one entry. -/
def w0 : World := ⟨true, 2200, true, true, true, true, some [lc "a.txt"]⟩

/-- A connected, not yet authenticated client whose server will answer one
`257` line. -/
def cexPwdClient : Client :=
  ⟨⟨some [.ln (lc "257 ok\r\n")], []⟩, .connected, ⟨lc "."⟩, .passive, none⟩

/-- An authenticated client in Passive mode with recorded address info, whose
server will answer `150` and `226` lines. -/
def cexListClient : Client :=
  ⟨⟨some [.ln (lc "150 ok\r\n"), .ln (lc "226 done\r\n")], []⟩, .authenticated,
    ⟨lc "."⟩, .passive, some ⟨.passive, lc "127.0.0.1", 2122⟩⟩

/-- A connected client whose server will answer the next command with `230`. -/
def cexPortClient : Client :=
  ⟨⟨some [.ln (lc "230 ok\r\n")], []⟩, .connected, ⟨lc "."⟩, .passive, none⟩

/-- The client produced by running `STOR a.txt` from `cexListClient` in the
environment `w0` (both replies consumed, the command logged as sent). -/
def cexStorAfter : Client :=
  ⟨⟨some [], [lc "STOR a.txt\r\n"]⟩, .authenticated, ⟨lc "."⟩, .passive,
    some ⟨.passive, lc "127.0.0.1", 2122⟩⟩

end RaxFtp

namespace RaxFtp

example : parse_response (lc "230 User logged in, proceed") =
    .ok ⟨230, lc "User logged in, proceed"⟩ := by decide
example : parse_response (lc "200 ") = .error (lc "Response too short") := by decide
example : parse_response (lc "  230 ok") = .ok ⟨230, lc "ok"⟩ := by decide
example : parse_response (lc "+30 ok") = .ok ⟨30, lc "ok"⟩ := by decide
example : parse_response (lc "999 Invalid code") = .ok ⟨999, lc "Invalid code"⟩ := by decide
example : parse_response (lc "abc") = .error (lc "Response too short") := by decide
example : parse_response (lc "200x") =
    .error (lc "Invalid response format: missing separator after code") := by decide
example : parse_response (lc "331-User name okay") = .ok ⟨331, lc "User name okay"⟩ := by decide
example : parse_response (lc "230 hi\r\n") = .ok ⟨230, lc "hi"⟩ := by decide

example :
    Conn.read_response
        ⟨some [.ln (lc "150-a\r\n"), .ln (lc "150-b\r\n"), .ln (lc "150 c\r\n"),
          .ln (lc "226 x\r\n")], []⟩ =
      some (.ok (lc "150-a\r\n150-b\r\n150 c\r\n"), ⟨some [.ln (lc "226 x\r\n")], []⟩,
        [.ctrlRead (lc "150-a\r\n"), .ctrlRead (lc "150-b\r\n"),
          .ctrlRead (lc "150 c\r\n")]) := by decide

example : readResponseLoop 7 ⟨some [.ln (lc "150-a\r\n")], []⟩ [] true none = none := by decide
example :
    Conn.read_response ⟨some [.ln (lc "226 ok\r\n")], []⟩ =
      some (.ok (lc "226 ok\r\n"), ⟨some [], []⟩, [.ctrlRead (lc "226 ok\r\n")]) := by decide


/-- `beginsWith` agrees with list prefixes. -/
lemma beginsWith_iff {s p : Str} : beginsWith s p = true ↔ p <+: s := by
  induction p generalizing s with
  | nil => simp [beginsWith]
  | cons a p ih =>
    cases s with
    | nil => simp [beginsWith]
    | cons b s' =>
      simp only [beginsWith, Bool.and_eq_true, decide_eq_true_eq, ih,
        List.cons_prefix_cons]
      exact and_congr_left fun _ => eq_comm

/-- C4: the state-update step: from Connected a 530 reply stays Connected and
a 230 reply moves to Authenticated; a 221 reply moves to Connected when the
control socket is still present and to Disconnected (clearing the data-channel
info) when it is absent; every other code leaves the state unchanged. -/
theorem update_state_matches_spec (c : Client) (m : Str) :
    (c.state = .connected → (update_state_from_response c ⟨530, m⟩).state = .connected) ∧
    (c.state = .connected → (update_state_from_response c ⟨230, m⟩).state = .authenticated) ∧
    (c.connection.is_connected = true →
      (update_state_from_response c ⟨221, m⟩).state = .connected) ∧
    (c.connection.is_connected = false →
      (update_state_from_response c ⟨221, m⟩).state = .disconnected ∧
      (update_state_from_response c ⟨221, m⟩).dataConnectionInfo = none) ∧
    (∀ code, code ≠ 230 → code ≠ 530 → code ≠ 221 →
      (update_state_from_response c ⟨code, m⟩).state = c.state) := by
  refine ⟨?_, ?_, ?_, ?_, ?_⟩
  · intro h
    simpa [update_state_from_response] using h
  · intro h
    simp [update_state_from_response, is_authentication_success]
  · intro h
    simp [update_state_from_response, h]
  · intro h
    simp [update_state_from_response, h]
  · intro code h1 h2 h3
    simp [update_state_from_response, h1, h2, h3]

/-- Witness for C4 at concrete clients: one with the socket present, one with
it absent. -/
theorem update_state_matches_spec_witness :
    (update_state_from_response
        ⟨⟨some [], []⟩, .connected, ⟨[]⟩, .passive, none⟩ ⟨530, []⟩).state = .connected ∧
    (update_state_from_response
        ⟨⟨some [], []⟩, .connected, ⟨[]⟩, .passive, none⟩ ⟨230, []⟩).state = .authenticated ∧
    (update_state_from_response
        ⟨⟨some [], []⟩, .authenticated, ⟨[]⟩, .passive, none⟩ ⟨221, []⟩).state = .connected ∧
    (update_state_from_response
        ⟨⟨none, []⟩, .authenticated, ⟨[]⟩, .passive,
          some ⟨.passive, lc "127.0.0.1", 2122⟩⟩ ⟨221, []⟩).state = .disconnected ∧
    (update_state_from_response
        ⟨⟨none, []⟩, .authenticated, ⟨[]⟩, .passive,
          some ⟨.passive, lc "127.0.0.1", 2122⟩⟩ ⟨221, []⟩).dataConnectionInfo = none ∧
    (update_state_from_response
        ⟨⟨some [], []⟩, .authenticated, ⟨[]⟩, .passive, none⟩ ⟨257, []⟩).state =
      .authenticated := by
  refine ⟨(update_state_matches_spec _ []).1 rfl,
    (update_state_matches_spec _ []).2.1 rfl,
    (update_state_matches_spec _ []).2.2.1 (by decide),
    ((update_state_matches_spec _ []).2.2.2.1 (by decide)).1,
    ((update_state_matches_spec _ []).2.2.2.1 (by decide)).2,
    (update_state_matches_spec _ []).2.2.2.2 257 (by decide) (by decide) (by decide)⟩

/-- The multi-line read loop can never return once the stream is exhausted
and a terminator is still expected: every further `read_line` yields the
empty line, which fails the 4-character test. -/
lemma readResponseLoop_eof_none (code : Str) (sent : List Str) :
    ∀ (fuel : Nat) (acc : Str),
      readResponseLoop fuel ⟨some [], sent⟩ acc false (some code) = none := by
  intro fuel
  induction fuel with
  | zero => intro acc; rfl
  | succ n ih =>
    intro acc
    simp [readResponseLoop, Conn.read_line, ih]

/-- C7: with the control stream at end-of-file after the line `150-a`, the
`read_response` loop never returns, for any iteration budget: `read_line`
reports EOF as an `Ok` empty line, so the loop neither invalidates the socket
nor raises `ConnectionLost` — it spins forever. -/
theorem read_response_eof_spins_forever :
    ∀ fuel : Nat,
      readResponseLoop fuel ⟨some [.ln (lc "150-a\r\n")], []⟩ [] true none = none := by
  intro fuel
  cases fuel with
  | zero => rfl
  | succ n =>
    simp +decide [readResponseLoop, Conn.read_line, readResponseLoop_eof_none]

/-- C8 counterexample: `get_port_command` on a Passive-mode channel returns a
mode-mismatch error that names no alternative method — neither the passive
establishment method `connect_to_server` nor the `PASV` command appears in
its message (unlike the other two mode-mismatch errors). -/
theorem get_port_command_passive_cex :
    get_port_command ⟨.passive false (lc "127.0.0.1") 2122⟩ =
      .error (.dataConnectionFailed (lc "PORT command not applicable in passive mode")) ∧
    containsSub (lc "connect_to_server")
      (lc "PORT command not applicable in passive mode") = false ∧
    containsSub (lc "PASV") (lc "PORT command not applicable in passive mode") = false ∧
    containsSub (lc "pasv") (lc "PORT command not applicable in passive mode") = false := by
  decide

/-- C8 amended: on a Passive channel `get_port_command` fails with a
mode-mismatch message that names no alternative method, while
`accept_connection` on a Passive channel and `connect_to_server` on an Active
channel fail with mode-mismatch messages naming the correct alternative
(`connect_to_server`, resp. `accept_connection`). -/
theorem mode_mismatch_errors (st : Bool) (host : Str) (port : Nat)
    (listener : Bool) (localPort : Option Nat) (w : World) :
    get_port_command ⟨.passive st host port⟩ =
      .error (.dataConnectionFailed (lc "PORT command not applicable in passive mode")) ∧
    accept_connection ⟨.passive st host port⟩ w =
      (.error (.dataConnectionFailed
        (lc "accept_connection not applicable in passive mode. Use connect_to_server instead.")),
        []) ∧
    containsSub (lc "connect_to_server")
      (lc "accept_connection not applicable in passive mode. Use connect_to_server instead.") =
      true ∧
    connect_to_server ⟨.active listener st localPort⟩ w =
      (.error (.dataConnectionFailed
        (lc "connect_to_server not applicable in active mode. Use accept_connection instead.")),
        []) ∧
    containsSub (lc "accept_connection")
      (lc "connect_to_server not applicable in active mode. Use accept_connection instead.") =
      true := by
  refine ⟨rfl, rfl, by decide, rfl, by decide⟩


/-- C5 counterexample: the input `"  230 ok"` has length at least 4 and its
first three characters are not ASCII digits, so by the claim it must yield an
error; `parse_response` trims it and succeeds. -/
theorem parse_response_cex :
    parse_response (lc "  230 ok") = .ok ⟨230, lc "ok"⟩ ∧
    4 ≤ (lc "  230 ok").length ∧
    ((lc "  230 ok").take 3).all Char.isDigit = false := by
  decide

/-- Complete characterization of `parse_response`: its result agrees with the
trim-first description `claimC5ok` on every input. -/
lemma parse_response_characterization (input : Str) :
    toOpt (parse_response input) = claimC5ok input := by
  unfold parse_response claimC5ok toOpt
  by_cases h4 : 4 ≤ (rustTrim input).length
  · have hne : (rustTrim input).isEmpty = false := by
      cases h : rustTrim input with
      | nil => rw [h] at h4; simp at h4
      | cons a l => simp [List.isEmpty]
    have hlt : ¬ (rustTrim input).length < 4 := by omega
    obtain ⟨ch, hch⟩ : ∃ ch, (rustTrim input).get? 3 = some ch := by
      cases hg : (rustTrim input).get? 3 with
      | none =>
        have := List.get?_eq_none.mp hg
        omega
      | some ch => exact ⟨ch, rfl⟩
    simp only [hne, Bool.false_eq_true, if_false, if_neg hlt, if_pos h4, hch,
      Option.getD_some]
    cases hp : parseU16 ((rustTrim input).take 3) with
    | none => rfl
    | some v =>
      dsimp only
      have hmsg : (if 4 < (rustTrim input).length then (rustTrim input).drop 4 else []) =
          (rustTrim input).drop 4 := by
        by_cases hgt : 4 < (rustTrim input).length
        · rw [if_pos hgt]
        · rw [if_neg hgt, List.drop_eq_nil_of_le (by omega)]
      by_cases hsp : ch = ' ' ∨ ch = '-'
      · have hcond : ¬ (ch ≠ ' ' ∧ ch ≠ '-') := by tauto
        rw [if_neg hcond, hmsg,
          if_pos (show some ch = some ' ' ∨ some ch = some '-' by simpa using hsp)]
      · have hcond : ch ≠ ' ' ∧ ch ≠ '-' := by tauto
        rw [if_pos hcond,
          if_neg (show ¬ (some ch = some ' ' ∨ some ch = some '-') by simpa using hsp)]
  · have hnot : ¬ ((rustTrim input).length ≥ 4) := h4
    rw [if_neg hnot]
    by_cases he : (rustTrim input).isEmpty = true
    · rw [if_pos he]
    · have hl : (rustTrim input).length < 4 := by
        rcases Nat.lt_or_ge (rustTrim input).length 4 with h | h
        · exact h
        · exact absurd h h4
      rw [if_neg he, if_pos hl]

/-- C5 amended: `parse_response` first trims Unicode whitespace from both
ends; it succeeds exactly on inputs whose trimmed form has length at least 4,
whose first 3 characters parse as a Rust `u16` numeral (three ASCII digits,
or `+` followed by two), and whose 4th character is a space or dash; the code
is that numeral's value and the message is everything after the 4th character
of the trimmed input; every other input yields an error and no partial
result. -/
theorem parse_response_amended (input : Str) :
    toOpt (parse_response input) = claimC5ok input :=
  parse_response_characterization input


/-- Decimal facts about three-digit codes, checked by evaluation: the
rendering has three characters, all ASCII digits (hence no whitespace), and
`parseU16` recovers the value. -/
lemma natStr_facts : ∀ v : Nat, v < 1000 → 100 ≤ v →
    (natStr v).length = 3 ∧ parseU16 (natStr v) = some v ∧
    (natStr v).all Char.isDigit = true ∧
    (natStr v).all (fun c => ! rustIsWhitespace c) = true := by decide

/-- A list whose head does not satisfy `p` is unchanged by `dropWhile p`. -/
lemma dropWhile_eq_self_of_head {p : Char → Bool} {l : Str}
    (h : ∀ ch, l.head? = some ch → p ch = false) : l.dropWhile p = l := by
  cases l with
  | nil => rfl
  | cons a t =>
    have ha := h a rfl
    simp [List.dropWhile_cons, ha]

/-- Trimming is the identity when neither end is whitespace. -/
lemma rustTrim_eq_self {l : Str}
    (hh : ∀ ch, l.head? = some ch → rustIsWhitespace ch = false)
    (hl : ∀ ch, l.getLast? = some ch → rustIsWhitespace ch = false) :
    rustTrim l = l := by
  unfold rustTrim
  rw [dropWhile_eq_self_of_head hh,
    dropWhile_eq_self_of_head (fun ch h => hl ch (by rwa [List.head?_reverse] at h)),
    List.reverse_reverse]

/-- C9 counterexample: `"007 x"` is three ASCII digits, a space and a text,
yet parse-then-reserialize yields `"7 x"`, which does not reproduce the
input's code digits. -/
theorem parse_display_roundtrip_cex :
    parse_response (lc "007 x") = .ok ⟨7, lc "x"⟩ ∧
    displayFtp ⟨7, lc "x"⟩ = lc "7 x" ∧
    lc "7 x" ≠ lc "007 x" ∧
    ((lc "007 x").take 3).all Char.isDigit = true := by decide

/-- C9 amended: for well-formed single-line inputs whose 3-digit code does
not start with `0` and whose message is nonempty and does not end in
whitespace, parse then reserialize reproduces the input exactly. -/
theorem parse_display_roundtrip (v : Nat) (msg : Str) (h1 : 100 ≤ v) (h2 : v ≤ 999)
    (hm : msg ≠ []) (hw : ∀ ch, msg.getLast? = some ch → rustIsWhitespace ch = false) :
    parse_response (natStr v ++ ' ' :: msg) = .ok ⟨v, msg⟩ ∧
    displayFtp ⟨v, msg⟩ = natStr v ++ ' ' :: msg := by
  obtain ⟨hlen, hparse, hdig, hnws⟩ := natStr_facts v (by omega) h1
  refine ⟨?_, rfl⟩
  obtain ⟨lch, hlch⟩ : ∃ lch, msg.getLast? = some lch := by
    cases hmm : msg.getLast? with
    | none => exact absurd (List.getLast?_eq_none.mp hmm) hm
    | some x => exact ⟨x, rfl⟩
  have htrim : rustTrim (natStr v ++ ' ' :: msg) = natStr v ++ ' ' :: msg := by
    apply rustTrim_eq_self
    · intro ch h
      cases hns : natStr v with
      | nil => rw [hns] at hlen; simp at hlen
      | cons a rest =>
        rw [hns] at h hnws
        simp only [List.cons_append, List.head?_cons, Option.some.injEq] at h
        simp only [List.all_cons, Bool.and_eq_true, Bool.not_eq_true'] at hnws
        rw [← h]
        exact hnws.1
    · intro ch h
      have hgl : (natStr v ++ ' ' :: msg).getLast? = some lch := by
        rw [List.getLast?_append,
          show (' ' :: msg : Str) = [' '] ++ msg from rfl,
          List.getLast?_append, hlch]
        rfl
      rw [hgl] at h
      injection h with h
      rw [← h]
      exact hw lch hlch
  have hopt := parse_response_characterization (natStr v ++ ' ' :: msg)
  have hlength : (natStr v ++ ' ' :: msg).length = msg.length + 4 := by
    simp [hlen]
    omega
  have htake : (natStr v ++ ' ' :: msg).take 3 = natStr v := by
    conv_lhs => rw [← hlen]
    exact List.take_left _ _
  have hget : (natStr v ++ ' ' :: msg).get? 3 = some ' ' := by
    rw [List.get?_append_right (by omega), hlen]
    rfl
  have hdrop : (natStr v ++ ' ' :: msg).drop 4 = msg := by
    rw [show (natStr v ++ ' ' :: msg : Str) = (natStr v ++ [' ']) ++ msg by simp,
      show (4 : Nat) = (natStr v ++ [' ']).length by simp [hlen]]
    exact List.drop_left _ _
  have hclaim : claimC5ok (natStr v ++ ' ' :: msg) = some ⟨v, msg⟩ := by
    unfold claimC5ok
    rw [htrim]
    rw [if_pos (by omega)]
    rw [htake, hparse]
    rw [hget]
    dsimp only
    rw [if_pos (by simp), hdrop]
  rw [hclaim] at hopt
  cases hpr : parse_response (natStr v ++ ' ' :: msg) with
  | ok a =>
    rw [hpr] at hopt
    simp only [toOpt, Option.some.injEq] at hopt
    rw [hopt]
  | error e =>
    rw [hpr] at hopt
    simp [toOpt] at hopt

/-- Witness for C9 at the spec's own example line. -/
theorem parse_display_roundtrip_witness :
    parse_response (lc "230 User logged in, proceed") =
      .ok ⟨230, lc "User logged in, proceed"⟩ ∧
    displayFtp ⟨230, lc "User logged in, proceed"⟩ = lc "230 User logged in, proceed" := by
  have h := parse_display_roundtrip 230 (lc "User logged in, proceed")
    (by decide) (by decide) (by decide)
    (by
      intro ch hch
      rw [show (lc "User logged in, proceed").getLast? = some 'd' from by decide] at hch
      injection hch with hch
      rw [← hch]
      decide)
  have heq : natStr 230 ++ ' ' :: lc "User logged in, proceed" =
      lc "230 User logged in, proceed" := by decide
  rw [heq] at h
  exact h


/-- Unfolding of the terminator test. -/
lemma isTermLine_iff {code line : Str} :
    isTermLine code line = true ↔
      4 ≤ line.length ∧ beginsWith line code = true ∧ line.get? 3 = some ' ' := by
  simp [isTermLine, ge_iff_le, and_assoc]

/-- In the multi-line phase, the read loop appends every line and stops at
the first line passing the terminator test. -/
lemma readResponseLoop_multiline {code term : Str} (post : List LineItem)
    (sent : List Str) (hterm : isTermLine code term = true) :
    ∀ (pre : List Str) (fuel : Nat) (acc : Str),
      (∀ l ∈ pre, isTermLine code l = false) →
      pre.length + 2 ≤ fuel →
      readResponseLoop fuel ⟨some ((pre ++ [term]).map .ln ++ post), sent⟩ acc false
          (some code) =
        some (.ok (acc ++ pre.join ++ term), ⟨some post, sent⟩,
          (pre ++ [term]).map Event.ctrlRead) := by
  intro pre
  induction pre with
  | nil =>
    intro fuel acc hpre hfuel
    cases fuel with
    | zero => omega
    | succ f =>
      obtain ⟨h1, h2, h3⟩ := isTermLine_iff.mp hterm
      simp only [List.nil_append, List.map_cons, List.map_nil, List.cons_append,
        readResponseLoop, Conn.read_line, List.singleton_append, Bool.false_eq_true,
        if_false]
      rw [if_pos ⟨h1, h2, h3⟩]
      simp
  | cons p ps ih =>
    intro fuel acc hpre hfuel
    cases fuel with
    | zero => omega
    | succ f =>
      have hp : isTermLine code p = false := hpre p (by simp)
      have hcond : ¬ (4 ≤ p.length ∧ beginsWith p code = true ∧ p.get? 3 = some ' ') := by
        intro hc
        rw [isTermLine_iff.mpr hc] at hp
        simp at hp
      simp only [List.cons_append, List.map_cons, readResponseLoop, Conn.read_line,
        Bool.false_eq_true, if_false]
      rw [if_neg hcond]
      rw [ih f (acc ++ p) (fun l hl => hpre l (by simp [hl])) (by simp at hfuel ⊢; omega)]
      simp

/-- First iteration of the read loop on a first line whose separator is a
dash: the line is consumed, its first three characters become the expected
code, and the loop continues. -/
lemma readResponseLoop_first_dash (f : Nat) (l0 : Str) (rest : List LineItem)
    (sent : List Str) (acc : Str) (h4 : 4 ≤ l0.length)
    (hd : (l0.get? 3).getD ' ' = '-') :
    readResponseLoop (f + 1) ⟨some (.ln l0 :: rest), sent⟩ acc true none =
      match readResponseLoop f ⟨some rest, sent⟩ (acc ++ l0) false (some (l0.take 3)) with
      | none => none
      | some (r, c'', ev') => some (r, c'', Event.ctrlRead l0 :: ev') := by
  simp only [readResponseLoop, Conn.read_line, eq_self_iff_true, if_true]
  rw [if_pos h4, hd]
  rw [if_neg (by decide : ¬ ('-' : Char) = ' '), if_pos rfl]
  rfl

/-- C6: when the first line is `code-…`, the loop appends every subsequent
line and returns exactly at the first line that starts with the same 3-digit
code followed by a space; a line with the code followed by a dash never
terminates the read; in particular `150-a`, `150-b`, `150 c` are all three
consumed and the read returns only at `150 c`. -/
theorem multiline_read (code restA term : Str) (pre : List Str)
    (post : List LineItem) (sent : List Str)
    (hcode : code.length = 3) (hdig : code.all Char.isDigit = true)
    (hpre : ∀ l ∈ pre, isTermLine code l = false)
    (hterm : isTermLine code term = true) :
    (Conn.read_response
        ⟨some (((code ++ '-' :: restA) :: pre ++ [term]).map .ln ++ post), sent⟩ =
      some (.ok ((code ++ '-' :: restA) ++ (pre.join ++ term)), ⟨some post, sent⟩,
        ((code ++ '-' :: restA) :: pre ++ [term]).map Event.ctrlRead)) ∧
    (∀ s : Str, isTermLine code (code ++ '-' :: s) = false) ∧
    (Conn.read_response
        ⟨some [.ln (lc "150-a\r\n"), .ln (lc "150-b\r\n"), .ln (lc "150 c\r\n")], []⟩ =
      some (.ok (lc "150-a\r\n150-b\r\n150 c\r\n"), ⟨some [], []⟩,
        [.ctrlRead (lc "150-a\r\n"), .ctrlRead (lc "150-b\r\n"),
          .ctrlRead (lc "150 c\r\n")])) := by
  refine ⟨?_, ?_, by decide⟩
  · have hf0len : 4 ≤ (code ++ '-' :: restA).length := by
      simp only [List.length_append, List.length_cons, hcode]
      omega
    have htake3 : (code ++ '-' :: restA).take 3 = code := by
      conv_lhs => rw [← hcode]
      exact List.take_left _ _
    have hget3 : ((code ++ '-' :: restA).get? 3).getD ' ' = '-' := by
      rw [List.get?_append_right (by omega), hcode]
      rfl
    unfold Conn.read_response Conn.fuel
    rw [show (((code ++ '-' :: restA) :: pre ++ [term]).map LineItem.ln ++ post :
        List LineItem) =
      .ln (code ++ '-' :: restA) :: ((pre ++ [term]).map LineItem.ln ++ post) by simp]
    rw [readResponseLoop_first_dash _ _ _ _ _ hf0len hget3, htake3]
    rw [readResponseLoop_multiline post sent hterm pre _ _ hpre
      (by simp only [List.length_cons, List.length_append, List.length_map]; omega)]
    simp
  · intro s
    have hg : (code ++ '-' :: s).get? 3 = some '-' := by
      rw [List.get?_append_right (by omega), hcode]
      rfl
    rw [List.get?_eq_getElem?] at hg
    simp [isTermLine, hg]

/-- Witness for C6 at a concrete four-line stream. -/
theorem multiline_read_witness :
    Conn.read_response
        ⟨some [.ln (lc "150-x\r\n"), .ln (lc "150-y\r\n"), .ln (lc "150 z\r\n"),
          .ln (lc "226 w\r\n")], [lc "LIST\r\n"]⟩ =
      some (.ok (lc "150-x\r\n150-y\r\n150 z\r\n"),
        ⟨some [.ln (lc "226 w\r\n")], [lc "LIST\r\n"]⟩,
        [.ctrlRead (lc "150-x\r\n"), .ctrlRead (lc "150-y\r\n"),
          .ctrlRead (lc "150 z\r\n")]) ∧
    isTermLine (lc "150") (lc "150-z\r\n") = false := by
  constructor
  · have h := (multiline_read (lc "150") (lc "x\r\n") (lc "150 z\r\n")
      [lc "150-y\r\n"] [.ln (lc "226 w\r\n")] [lc "LIST\r\n"]
      (by decide) (by decide) (by decide) (by decide)).1
    simpa using h
  · exact (multiline_read (lc "150") (lc "x\r\n") (lc "150 z\r\n")
      [] [] [] (by decide) (by decide) (by decide) (by decide)).2.1 (lc "z\r\n")


/-- Case analysis for `andThen`. -/
lemma andThen_cases {α β : Type} {r : Res α} {f : α → Client → Res β}
    {out : Except Err β} {c' : Client} {ev : List Event}
    (h : andThen r f = some (out, c', ev)) :
    (∃ e, r = some (.error e, c', ev) ∧ out = .error e) ∨
    (∃ a c₁ ev₁ ev₂, r = some (.ok a, c₁, ev₁) ∧ f a c₁ = some (out, c', ev₂) ∧
      ev = ev₁ ++ ev₂) := by
  cases hr : r with
  | none => rw [hr] at h; exact absurd h (by simp [andThen])
  | some trip =>
    obtain ⟨res, c₁, ev₁⟩ := trip
    cases res with
    | error e =>
      rw [hr] at h
      simp only [andThen, Option.some.injEq, Prod.mk.injEq] at h
      obtain ⟨h1, h2, h3⟩ := h
      subst h1 h2 h3
      exact Or.inl ⟨e, rfl, rfl⟩
    | ok a =>
      rw [hr] at h
      simp only [andThen] at h
      cases hf : f a c₁ with
      | none => rw [hf] at h; cases h
      | some trip2 =>
        obtain ⟨out2, c₂, ev₂⟩ := trip2
        rw [hf] at h
        simp only [Option.some.injEq, Prod.mk.injEq] at h
        obtain ⟨h1, h2, h3⟩ := h
        subst h1 h2 h3
        exact Or.inr ⟨a, c₁, ev₁, ev₂, rfl, hf, rfl⟩

/-- Case analysis for `seqEv`. -/
lemma seqEv_cases {α : Type} {ev0 : List Event} {r : Res α}
    {out : Except Err α} {c' : Client} {ev : List Event}
    (h : seqEv ev0 r = some (out, c', ev)) :
    ∃ ev', r = some (out, c', ev') ∧ ev = ev0 ++ ev' := by
  cases hr : r with
  | none => rw [hr] at h; cases h
  | some trip =>
    obtain ⟨o, c₁, ev₁⟩ := trip
    rw [hr] at h
    simp only [seqEv, Option.some.injEq, Prod.mk.injEq] at h
    obtain ⟨h1, h2, h3⟩ := h
    subst h1 h2 h3
    exact ⟨ev₁, rfl, rfl⟩

/-- Case analysis for the continuation step inside the read loop. -/
lemma readResponseLoop_cont_cases {f : Nat} {c₁ : Conn} {acc : Str}
    {exp : Option Str} {ev0 : List Event} {r : Except Err Str} {c' : Conn}
    {ev : List Event}
    (h : (match readResponseLoop f c₁ acc false exp with
      | none => none
      | some (r2, c2, ev') => some (r2, c2, ev0 ++ ev')) = some (r, c', ev)) :
    ∃ ev', readResponseLoop f c₁ acc false exp = some (r, c', ev') ∧ ev = ev0 ++ ev' := by
  cases hin : readResponseLoop f c₁ acc false exp with
  | none => rw [hin] at h; cases h
  | some trip =>
    obtain ⟨r2, c2, ev'⟩ := trip
    rw [hin] at h
    simp only [Option.some.injEq, Prod.mk.injEq] at h
    obtain ⟨h1, h2, h3⟩ := h
    subst h1 h2 h3
    exact ⟨ev', rfl, rfl⟩

/-- One step of the read loop: either the line read fails and the failure is
returned as-is, or a line is delivered and the loop breaks with the
accumulated text or continues with some expected code. -/
lemma readResponseLoop_succ_cases {f : Nat} {c : Conn} {acc : Str} {fl : Bool}
    {exp : Option Str} {r : Except Err Str} {c' : Conn} {ev : List Event}
    (h : readResponseLoop (f + 1) c acc fl exp = some (r, c', ev)) :
    (∃ e, c.read_line = (.error e, c', ev) ∧ r = .error e) ∨
    (∃ line c₁ ev0, c.read_line = (.ok line, c₁, ev0) ∧
      ((r = .ok (acc ++ line) ∧ c' = c₁ ∧ ev = ev0) ∨
       (∃ exp' ev', readResponseLoop f c₁ (acc ++ line) false exp' = some (r, c', ev') ∧
         ev = ev0 ++ ev'))) := by
  simp only [readResponseLoop] at h
  cases hrl : c.read_line with
  | mk res rest =>
    obtain ⟨c₁, ev0⟩ := rest
    cases res with
    | error e =>
      rw [hrl] at h
      dsimp only at h
      simp only [Option.some.injEq, Prod.mk.injEq] at h
      obtain ⟨h1, h2, h3⟩ := h
      subst h1 h2 h3
      exact Or.inl ⟨e, rfl, rfl⟩
    | ok line =>
      rw [hrl] at h
      dsimp only at h
      cases fl with
      | false =>
        rw [if_neg (by decide : ¬ (false = true))] at h
        cases exp with
        | some code =>
          dsimp only at h
          by_cases hc : line.length ≥ 4 ∧ beginsWith line code = true ∧
              line.get? 3 = some ' '
          · rw [if_pos hc] at h
            simp only [Option.some.injEq, Prod.mk.injEq] at h
            obtain ⟨h1, h2, h3⟩ := h
            exact Or.inr ⟨line, c₁, ev0, rfl, Or.inl ⟨h1.symm, h2.symm, h3.symm⟩⟩
          · rw [if_neg hc] at h
            obtain ⟨ev', hin, hev⟩ := readResponseLoop_cont_cases h
            exact Or.inr ⟨line, c₁, ev0, rfl, Or.inr ⟨some code, ev', hin, hev⟩⟩
        | none =>
          dsimp only at h
          obtain ⟨ev', hin, hev⟩ := readResponseLoop_cont_cases h
          exact Or.inr ⟨line, c₁, ev0, rfl, Or.inr ⟨none, ev', hin, hev⟩⟩
      | true =>
        rw [if_pos rfl] at h
        by_cases h4 : line.length ≥ 4
        · rw [if_pos h4] at h
          by_cases hsp : (line.get? 3).getD ' ' = ' '
          · rw [if_pos hsp] at h
            simp only [Option.some.injEq, Prod.mk.injEq] at h
            obtain ⟨h1, h2, h3⟩ := h
            exact Or.inr ⟨line, c₁, ev0, rfl, Or.inl ⟨h1.symm, h2.symm, h3.symm⟩⟩
          · rw [if_neg hsp] at h
            by_cases hdsh : (line.get? 3).getD ' ' = '-'
            · rw [if_pos hdsh] at h
              obtain ⟨ev', hin, hev⟩ := readResponseLoop_cont_cases h
              exact Or.inr ⟨line, c₁, ev0, rfl,
                Or.inr ⟨some (line.take 3), ev', hin, hev⟩⟩
            · rw [if_neg hdsh] at h
              obtain ⟨ev', hin, hev⟩ := readResponseLoop_cont_cases h
              exact Or.inr ⟨line, c₁, ev0, rfl, Or.inr ⟨none, ev', hin, hev⟩⟩
        · rw [if_neg h4] at h
          obtain ⟨ev', hin, hev⟩ := readResponseLoop_cont_cases h
          exact Or.inr ⟨line, c₁, ev0, rfl, Or.inr ⟨none, ev', hin, hev⟩⟩

/-- `read_line` never touches the sent log, only emits control reads, and on
success leaves the socket present. -/
lemma read_line_facts (c : Conn) :
    (c.read_line).2.1.sent = c.sent ∧
    (∀ e ∈ (c.read_line).2.2, ∃ s, e = Event.ctrlRead s) ∧
    (∀ line, (c.read_line).1 = .ok line → (c.read_line).2.1.stream.isSome = true) := by
  obtain ⟨st, snt⟩ := c
  rcases st with _ | ⟨_ | ⟨⟨⟩, rest⟩⟩ <;> simp [Conn.read_line]

/-- Invariants of the read loop: the sent log never changes, every event is a
control read, and a successful return leaves the socket present. -/
lemma readResponseLoop_inv :
    ∀ (fuel : Nat) (c : Conn) (acc : Str) (fl : Bool) (exp : Option Str)
      (r : Except Err Str) (c' : Conn) (ev : List Event),
      readResponseLoop fuel c acc fl exp = some (r, c', ev) →
      c'.sent = c.sent ∧ (∀ e ∈ ev, ∃ s, e = Event.ctrlRead s) ∧
      (∀ raw, r = .ok raw → c'.stream.isSome = true) := by
  intro fuel
  induction fuel with
  | zero => intro c acc fl exp r c' ev h; cases h
  | succ f ih =>
    intro c acc fl exp r c' ev h
    rcases readResponseLoop_succ_cases h with ⟨e, hrl, hr⟩ |
      ⟨line, c₁, ev0, hrl, ⟨hr, hc, hev⟩ | ⟨exp', ev', hin, hev⟩⟩
    · obtain ⟨hs, hevs, _⟩ := read_line_facts c
      rw [hrl] at hs hevs
      exact ⟨hs, hevs, fun raw hraw => by rw [hr] at hraw; cases hraw⟩
    · obtain ⟨hs, hevs, hok⟩ := read_line_facts c
      rw [hrl] at hs hevs hok
      subst hc hev
      exact ⟨hs, hevs, fun raw hraw => hok line rfl⟩
    · obtain ⟨hs0, hevs0, _⟩ := read_line_facts c
      rw [hrl] at hs0 hevs0
      obtain ⟨hs, hevs, hok⟩ := ih _ _ _ _ _ _ _ hin
      subst hev
      refine ⟨hs.trans hs0, ?_, hok⟩
      intro e he
      rcases List.mem_append.mp he with he | he
      · exact hevs0 e he
      · exact hevs e he


/-- With the socket present, the state-machine update can only move the
session state (on codes 230 and 221); the data-mode fields, configuration and
connection are untouched. -/
lemma update_state_frame (c : Client) (p : FtpResponse)
    (halive : c.connection.stream.isSome = true) :
    (update_state_from_response c p).currentDataMode = c.currentDataMode ∧
    (update_state_from_response c p).dataConnectionInfo = c.dataConnectionInfo ∧
    (update_state_from_response c p).config = c.config ∧
    (update_state_from_response c p).connection = c.connection ∧
    ((update_state_from_response c p).state ≠ c.state → p.code = 230 ∨ p.code = 221) := by
  unfold update_state_from_response
  by_cases h230 : p.code = 230
  · simp [h230, is_authentication_success]
  · by_cases h530 : p.code = 530
    · simp [h230, h530]
    · by_cases h221 : p.code = 221
      · have hconn : c.connection.is_connected = true := by
          simpa [Conn.is_connected] using halive
        simp [h230, h530, h221, hconn]
      · simp [h230, h530, h221]

/-- Frame facts for the client-level `read_response`: the data-mode fields,
configuration and sent log are untouched, every event is a control read, and
the session state moves only when the reply parses to code 230 or 221. -/
lemma read_responseC_facts {c : Client} {r : Except Err Str} {c' : Client}
    {ev : List Event} (h : read_responseC c = some (r, c', ev)) :
    c'.currentDataMode = c.currentDataMode ∧
    c'.dataConnectionInfo = c.dataConnectionInfo ∧
    c'.config = c.config ∧
    c'.connection.sent = c.connection.sent ∧
    (∀ e ∈ ev, ∃ s, e = Event.ctrlRead s) ∧
    (c'.state ≠ c.state → ∃ raw p, r = .ok raw ∧ parse_response raw = .ok p ∧
      (p.code = 230 ∨ p.code = 221)) := by
  unfold read_responseC at h
  cases hc : c.connection.read_response with
  | none => rw [hc] at h; cases h
  | some trip =>
    obtain ⟨res, conn', evr⟩ := trip
    rw [hc] at h
    unfold Conn.read_response at hc
    obtain ⟨hsent, hevs, hok⟩ := readResponseLoop_inv _ _ _ _ _ _ _ _ hc
    cases res with
    | error e =>
      dsimp only at h
      simp only [Option.some.injEq, Prod.mk.injEq] at h
      obtain ⟨h1, h2, h3⟩ := h
      subst h1 h2 h3
      exact ⟨rfl, rfl, rfl, hsent, hevs, fun hne => absurd rfl hne⟩
    | ok raw =>
      dsimp only at h
      cases hp : parse_response raw with
      | error e2 =>
        rw [hp] at h
        simp only [Option.some.injEq, Prod.mk.injEq] at h
        obtain ⟨h1, h2, h3⟩ := h
        subst h1 h2 h3
        exact ⟨rfl, rfl, rfl, hsent, hevs, fun hne => absurd rfl hne⟩
      | ok parsed =>
        rw [hp] at h
        simp only [Option.some.injEq, Prod.mk.injEq] at h
        obtain ⟨h1, h2, h3⟩ := h
        subst h1 h2 h3
        have halive : ({ c with connection := conn' } : Client).connection.stream.isSome =
            true := hok raw rfl
        obtain ⟨f1, f2, f3, f4, f5⟩ :=
          update_state_frame ({ c with connection := conn' }) parsed halive
        refine ⟨f1, f2, f3, ?_, hevs, ?_⟩
        · rw [show (update_state_from_response { c with connection := conn' }
            parsed).connection = conn' from f4]
          exact hsent
        · intro hne
          refine ⟨raw, parsed, rfl, hp, f5 ?_⟩
          simpa using hne


/-- With the socket present, a send succeeds and appends exactly the
CRLF-terminated command to the sent log. -/
lemma sendCommandC_ok {c : Client} {cmd : Str} {items : List LineItem}
    (hs : c.connection.stream = some items) :
    sendCommandC c cmd = some (.ok (),
      { c with connection := ⟨some items, c.connection.sent ++ [fmtCRLF cmd]⟩ },
      [.ctrlWrite (fmtCRLF cmd)]) := by
  unfold sendCommandC Conn.send_command
  rw [hs]

/-- Frame facts for a send: only the connection changes, and any event is the
write of the CRLF-terminated command. -/
lemma sendCommandC_facts {c : Client} {cmd : Str} {out : Except Err Unit}
    {c' : Client} {ev : List Event}
    (h : sendCommandC c cmd = some (out, c', ev)) :
    c'.state = c.state ∧ c'.currentDataMode = c.currentDataMode ∧
    c'.dataConnectionInfo = c.dataConnectionInfo ∧ c'.config = c.config ∧
    c'.connection.stream = c.connection.stream ∧
    (∀ e ∈ ev, e = Event.ctrlWrite (fmtCRLF cmd)) := by
  unfold sendCommandC Conn.send_command at h
  cases hs : c.connection.stream with
  | none =>
    rw [hs] at h
    dsimp only at h
    simp only [Option.some.injEq, Prod.mk.injEq] at h
    obtain ⟨h1, h2, h3⟩ := h
    subst h2 h3
    refine ⟨rfl, rfl, rfl, rfl, by simpa using hs, by simp⟩
  | some items =>
    rw [hs] at h
    dsimp only at h
    simp only [Option.some.injEq, Prod.mk.injEq] at h
    obtain ⟨h1, h2, h3⟩ := h
    subst h2 h3
    refine ⟨rfl, rfl, rfl, rfl, by simpa using hs, ?_⟩
    intro e he
    rcases List.mem_singleton.mp he with rfl
    rfl

/-- With a non-whitespace head, trimming only removes a suffix. -/
lemma rustTrim_prefix_of_head {l : Str}
    (hh : ∀ ch, l.head? = some ch → rustIsWhitespace ch = false) :
    rustTrim l <+: l := by
  unfold rustTrim
  rw [dropWhile_eq_self_of_head hh]
  have hsuf : (l.reverse.dropWhile rustIsWhitespace) <:+ l.reverse :=
    List.dropWhile_suffix _
  have := List.reverse_prefix.mpr hsuf
  rwa [List.reverse_reverse] at this

/-- A reply that starts with the three digits `227` can only parse to code
227. -/
lemma code_of_prefix227 {resp : Str} {p : FtpResponse}
    (hb : beginsWith resp (lc "227") = true) (hp : parse_response resp = .ok p) :
    p.code = 227 := by
  obtain ⟨rest, hr⟩ : ∃ rest, resp = lc "227" ++ rest := by
    obtain ⟨t, ht⟩ := beginsWith_iff.mp hb
    exact ⟨t, ht.symm⟩
  subst hr
  have hopt := parse_response_characterization (lc "227" ++ rest)
  rw [hp] at hopt
  have hh : ∀ ch, (lc "227" ++ rest).head? = some ch →
      rustIsWhitespace ch = false := by
    intro ch h
    have h2 : ((lc "227" ++ rest) : Str).head? = some '2' := rfl
    rw [h2] at h
    injection h with h
    rw [← h]
    decide
  have hpre : rustTrim (lc "227" ++ rest) <+: lc "227" ++ rest :=
    rustTrim_prefix_of_head hh
  unfold claimC5ok at hopt
  by_cases h4 : 4 ≤ (rustTrim (lc "227" ++ rest)).length
  · rw [if_pos h4] at hopt
    have htk : (rustTrim (lc "227" ++ rest)).take 3 = lc "227" := by
      obtain ⟨t2, ht2⟩ := hpre
      have hstep : (rustTrim (lc "227" ++ rest)).take 3 =
          ((rustTrim (lc "227" ++ rest)) ++ t2).take 3 := by
        rw [List.take_append_eq_append_take,
          show (3 - (rustTrim (lc "227" ++ rest)).length) = 0 by omega,
          List.take_zero, List.append_nil]
      rw [hstep, ht2]
      rw [show (3 : Nat) = (lc "227").length from by decide]
      exact List.take_left _ _
    rw [htk, show parseU16 (lc "227") = some 227 from by decide] at hopt
    dsimp only at hopt
    by_cases hsep : (rustTrim (lc "227" ++ rest)).get? 3 = some ' ' ∨
        (rustTrim (lc "227" ++ rest)).get? 3 = some '-'
    · rw [if_pos hsep] at hopt
      injection hopt with hopt
      rw [hopt]
    · rw [if_neg hsep] at hopt
      cases hopt
  · rw [if_neg h4] at hopt
    cases hopt

/-- C10 counterexample: a `PORT` exchange answered by `230` leaves the
data-mode fields untouched but flips the session state from Connected to
Authenticated — `read_response` inside the handler runs the state machine. -/
theorem port_state_change_cex :
    handle_port_command cexPortClient (lc "127.0.0.1:2122") =
      some (.ok (lc "230 ok\r\n"),
        ⟨⟨some [], [lc "PORT 127.0.0.1:2122\r\n"]⟩, .authenticated, ⟨lc "."⟩,
          .passive, none⟩,
        [.ctrlWrite (lc "PORT 127.0.0.1:2122\r\n"), .ctrlRead (lc "230 ok\r\n")]) ∧
    cexPortClient.state = .connected ∧
    cexPortClient.currentDataMode = .passive ∧
    cexPortClient.dataConnectionInfo = none := by
  decide

/-- C10 amended: the PORT and PASV handlers update `current_data_mode` and
`data_connection_info` only on a success reply (`200` for PORT with a valid
address, `227` for PASV with a parsable address); on any other reply, parse
failure or transport error both fields are unchanged; the configuration is
never modified; the session state may additionally change, but only when the
reply parses to code 230 or 221 (the state-machine step inside
`read_response`). -/
theorem port_pasv_update_frame :
    (∀ (c : Client) (addr : Str) (r : Except Err Str) (c' : Client) (ev : List Event),
      handle_port_command c addr = some (r, c', ev) →
      c'.config = c.config ∧
      ((∃ ip port resp, parseSocketAddr addr = some (ip, port) ∧ r = .ok resp ∧
          beginsWith resp (lc "200") = true ∧ c'.currentDataMode = .active ∧
          c'.dataConnectionInfo = some ⟨.active, ip, port⟩) ∨
        (c'.currentDataMode = c.currentDataMode ∧
          c'.dataConnectionInfo = c.dataConnectionInfo)) ∧
      (c'.state ≠ c.state → ∃ raw p, r = .ok raw ∧ parse_response raw = .ok p ∧
        (p.code = 230 ∨ p.code = 221))) ∧
    (∀ (c : Client) (r : Except Err Str) (c' : Client) (ev : List Event),
      handle_pasv_command c = some (r, c', ev) →
      c'.config = c.config ∧
      ((∃ resp info, r = .ok resp ∧ beginsWith resp (lc "227") = true ∧
          parse_pasv_response resp = some info ∧ c'.currentDataMode = .passive ∧
          c'.dataConnectionInfo = some info) ∨
        (c'.currentDataMode = c.currentDataMode ∧
          c'.dataConnectionInfo = c.dataConnectionInfo)) ∧
      (c'.state ≠ c.state → ∃ raw p, r = .ok raw ∧ parse_response raw = .ok p ∧
        (p.code = 230 ∨ p.code = 221))) := by
  constructor
  · intro c addr r c' ev h
    unfold handle_port_command at h
    cases hpa : parseSocketAddr addr with
    | none =>
      rw [hpa] at h
      dsimp only at h
      simp only [Option.some.injEq, Prod.mk.injEq] at h
      obtain ⟨h1, h2, h3⟩ := h
      subst h1 h2 h3
      exact ⟨rfl, Or.inr ⟨rfl, rfl⟩, fun hne => absurd rfl hne⟩
    | some pr =>
      obtain ⟨ip, port⟩ := pr
      rw [hpa] at h
      dsimp only at h
      rcases andThen_cases h with ⟨e, hsend, hout⟩ |
        ⟨a, c1, ev1, ev2, hsend, hrest, hev⟩
      · obtain ⟨f1, f2, f3, f4, _, _⟩ := sendCommandC_facts hsend
        exact ⟨f4, Or.inr ⟨f2, f3⟩, fun hne => absurd f1 hne⟩
      · obtain ⟨s1, s2, s3, s4, _, _⟩ := sendCommandC_facts hsend
        try dsimp only at hrest
        rcases andThen_cases hrest with ⟨e, hread, hout⟩ |
          ⟨resp, c2, ev3, ev4, hread, hfin, hev2⟩
        · obtain ⟨r1, r2, r3, _, _, r6⟩ := read_responseC_facts hread
          refine ⟨r3.trans s4, Or.inr ⟨r1.trans s2, r2.trans s3⟩, ?_⟩
          intro hne
          rw [hout]
          exact r6 (by rw [s1]; exact hne)
        · obtain ⟨r1, r2, r3, _, _, r6⟩ := read_responseC_facts hread
          try dsimp only at hfin
          by_cases hb : beginsWith resp (lc "200") = true
          · rw [if_pos hb] at hfin
            simp only [Option.some.injEq, Prod.mk.injEq] at hfin
            obtain ⟨g1, g2, g3⟩ := hfin
            subst g1 g2
            refine ⟨r3.trans s4, Or.inl ⟨ip, port, resp, rfl, rfl, hb, rfl, rfl⟩, ?_⟩
            intro hne
            have : c2.state ≠ c1.state := by
              simpa [s1] using hne
            exact r6 this
          · rw [if_neg hb] at hfin
            simp only [Option.some.injEq, Prod.mk.injEq] at hfin
            obtain ⟨g1, g2, g3⟩ := hfin
            subst g1 g2
            refine ⟨r3.trans s4, Or.inr ⟨r1.trans s2, r2.trans s3⟩, ?_⟩
            intro hne
            exact r6 (by rw [s1]; exact hne)
  · intro c r c' ev h
    unfold handle_pasv_command at h
    rcases andThen_cases h with ⟨e, hsend, hout⟩ |
      ⟨a, c1, ev1, ev2, hsend, hrest, hev⟩
    · obtain ⟨f1, f2, f3, f4, _, _⟩ := sendCommandC_facts hsend
      exact ⟨f4, Or.inr ⟨f2, f3⟩, fun hne => absurd f1 hne⟩
    · obtain ⟨s1, s2, s3, s4, _, _⟩ := sendCommandC_facts hsend
      try dsimp only at hrest
      rcases andThen_cases hrest with ⟨e, hread, hout⟩ |
        ⟨resp, c2, ev3, ev4, hread, hfin, hev2⟩
      · obtain ⟨r1, r2, r3, _, _, r6⟩ := read_responseC_facts hread
        refine ⟨r3.trans s4, Or.inr ⟨r1.trans s2, r2.trans s3⟩, ?_⟩
        intro hne
        rw [hout]
        exact r6 (by rw [s1]; exact hne)
      · obtain ⟨r1, r2, r3, _, _, r6⟩ := read_responseC_facts hread
        try dsimp only at hfin
        by_cases hb : beginsWith resp (lc "227") = true
        · rw [if_pos hb] at hfin
          cases hpp : parse_pasv_response resp with
          | some info =>
            rw [hpp] at hfin
            simp only [Option.some.injEq, Prod.mk.injEq] at hfin
            obtain ⟨g1, g2, g3⟩ := hfin
            subst g1 g2
            refine ⟨r3.trans s4, Or.inl ⟨resp, info, rfl, hb, hpp, rfl, rfl⟩, ?_⟩
            intro hne
            have : c2.state ≠ c1.state := by simpa [s1] using hne
            exact r6 this
          | none =>
            rw [hpp] at hfin
            simp only [Option.some.injEq, Prod.mk.injEq] at hfin
            obtain ⟨g1, g2, g3⟩ := hfin
            subst g1 g2
            refine ⟨r3.trans s4, Or.inr ⟨r1.trans s2, r2.trans s3⟩, ?_⟩
            intro hne
            have hstate : c2.state = c1.state := by
              by_contra hne1
              obtain ⟨raw, p, hraw, hpar, hcode⟩ := r6 hne1
              injection hraw with hraw
              subst hraw
              have h227 := code_of_prefix227 hb hpar
              rcases hcode with hcc | hcc <;> omega
            exact absurd (hstate.trans s1) hne
        · rw [if_neg hb] at hfin
          simp only [Option.some.injEq, Prod.mk.injEq] at hfin
          obtain ⟨g1, g2, g3⟩ := hfin
          subst g1 g2
          refine ⟨r3.trans s4, Or.inr ⟨r1.trans s2, r2.trans s3⟩, ?_⟩
          intro hne
          exact r6 (by rw [s1]; exact hne)

/-- Witness for C10: the PORT clause applied at the concrete `230`-answering
run. -/
theorem port_pasv_update_frame_witness :
    (⟨⟨some [], [lc "PORT 127.0.0.1:2122\r\n"]⟩, .authenticated, ⟨lc "."⟩,
        .passive, none⟩ : Client).config = cexPortClient.config ∧
    ((∃ ip port resp, parseSocketAddr (lc "127.0.0.1:2122") = some (ip, port) ∧
        (.ok (lc "230 ok\r\n") : Except Err Str) = .ok resp ∧
        beginsWith resp (lc "200") = true ∧
        (⟨⟨some [], [lc "PORT 127.0.0.1:2122\r\n"]⟩, .authenticated, ⟨lc "."⟩,
          .passive, none⟩ : Client).currentDataMode = .active ∧
        (⟨⟨some [], [lc "PORT 127.0.0.1:2122\r\n"]⟩, .authenticated, ⟨lc "."⟩,
          .passive, none⟩ : Client).dataConnectionInfo = some ⟨.active, ip, port⟩) ∨
      ((⟨⟨some [], [lc "PORT 127.0.0.1:2122\r\n"]⟩, .authenticated, ⟨lc "."⟩,
          .passive, none⟩ : Client).currentDataMode = cexPortClient.currentDataMode ∧
        (⟨⟨some [], [lc "PORT 127.0.0.1:2122\r\n"]⟩, .authenticated, ⟨lc "."⟩,
          .passive, none⟩ : Client).dataConnectionInfo =
          cexPortClient.dataConnectionInfo)) ∧
    ((⟨⟨some [], [lc "PORT 127.0.0.1:2122\r\n"]⟩, .authenticated, ⟨lc "."⟩,
        .passive, none⟩ : Client).state ≠ cexPortClient.state →
      ∃ raw p, (.ok (lc "230 ok\r\n") : Except Err Str) = .ok raw ∧
        parse_response raw = .ok p ∧ (p.code = 230 ∨ p.code = 221)) :=
  port_pasv_update_frame.1 cexPortClient (lc "127.0.0.1:2122")
    (.ok (lc "230 ok\r\n"))
    ⟨⟨some [], [lc "PORT 127.0.0.1:2122\r\n"]⟩, .authenticated, ⟨lc "."⟩,
      .passive, none⟩
    [.ctrlWrite (lc "PORT 127.0.0.1:2122\r\n"), .ctrlRead (lc "230 ok\r\n")]
    (by decide)


/-- C1 counterexample: `PWD` in Connected-but-not-Authenticated state is sent
to the server (one control write) and the server's reply is returned — no
synthetic not-authenticated error, not zero writes. -/
theorem no_auth_gating_cex :
    execute_command cexPwdClient w0 .pwd =
      some (.ok (lc "257 ok\r\n"),
        ⟨⟨some [], [lc "PWD\r\n"]⟩, .connected, ⟨lc "."⟩, .passive, none⟩,
        [.ctrlWrite (lc "PWD\r\n"), .ctrlRead (lc "257 ok\r\n")]) ∧
    cexPwdClient.state = .connected ∧
    ¬ cexPwdClient.state = .authenticated ∧
    (⟨⟨some [], [lc "PWD\r\n"]⟩, .connected, ⟨lc "."⟩, .passive, none⟩ :
      Client).connection.sent.length = 1 := by
  decide

/-- C1 amended: the dispatcher performs no authentication gating: with the
socket present, any passthrough command outside the login phase (LOGOUT,
RETR, DEL, PWD, CWD, RAX, HELP) executed while Connected-but-not-Authenticated
is written to the control channel — the sent log grows by exactly the
CRLF-terminated command and the first event is that write — and the server's
reply (or a transport error), never a synthetic not-authenticated error, is
returned. -/
theorem no_auth_gating (c : Client) (w : World) (cmd : FtpCommand)
    (items : List LineItem) (r : Except Err Str) (c' : Client) (ev : List Event)
    (hcmd : isPassthroughNonLogin cmd = true) (hstate : c.state = .connected)
    (hconn : c.connection.stream = some items)
    (h : execute_command c w cmd = some (r, c', ev)) :
    c'.connection.sent = c.connection.sent ++ [fmtCRLF (to_ftp_string cmd)] ∧
    ev.head? = some (.ctrlWrite (fmtCRLF (to_ftp_string cmd))) := by
  have hpass : execute_command c w cmd =
      andThen (sendCommandC c (to_ftp_string cmd)) fun _ c1 => read_responseC c1 := by
    cases cmd <;> first | rfl | simp [isPassthroughNonLogin] at hcmd
  rw [hpass] at h
  rcases andThen_cases h with ⟨e, hsend, _⟩ | ⟨a, c1, ev1, ev2, hsend, hrest, hev⟩
  · rw [sendCommandC_ok hconn] at hsend
    simp at hsend
  · rw [sendCommandC_ok hconn] at hsend
    simp only [Option.some.injEq, Prod.mk.injEq] at hsend
    obtain ⟨h1, h2, h3⟩ := hsend
    subst h2 h3
    obtain ⟨_, _, _, hsent, _, _⟩ := read_responseC_facts hrest
    subst hev
    exact ⟨hsent, rfl⟩

/-- Witness for C1 at the concrete `PWD` run. -/
theorem no_auth_gating_witness :
    (⟨⟨some [], [lc "PWD\r\n"]⟩, .connected, ⟨lc "."⟩, .passive, none⟩ :
      Client).connection.sent =
      cexPwdClient.connection.sent ++ [fmtCRLF (to_ftp_string .pwd)] ∧
    ([.ctrlWrite (lc "PWD\r\n"), .ctrlRead (lc "257 ok\r\n")] : List Event).head? =
      some (.ctrlWrite (fmtCRLF (to_ftp_string .pwd))) :=
  no_auth_gating cexPwdClient w0 .pwd [.ln (lc "257 ok\r\n")]
    (.ok (lc "257 ok\r\n"))
    ⟨⟨some [], [lc "PWD\r\n"]⟩, .connected, ⟨lc "."⟩, .passive, none⟩
    [.ctrlWrite (lc "PWD\r\n"), .ctrlRead (lc "257 ok\r\n")]
    (by decide) (by decide) (by decide) (by decide)

/-- C3: executing RETR takes the plain passthrough path: every event of the
run is a control-channel event — no data connection is created, no data
stream is established or read, no local file is touched — and the data-mode
fields are unchanged. -/
theorem retr_no_download (c : Client) (w : World) (f : Str)
    (r : Except Err Str) (c' : Client) (ev : List Event)
    (h : execute_command c w (.retr f) = some (r, c', ev)) :
    (∀ e ∈ ev, isCtrlEvent e = true) ∧
    c'.dataConnectionInfo = c.dataConnectionInfo ∧
    c'.currentDataMode = c.currentDataMode := by
  have hpass : execute_command c w (.retr f) =
      andThen (sendCommandC c (to_ftp_string (.retr f))) fun _ c1 =>
        read_responseC c1 := rfl
  rw [hpass] at h
  rcases andThen_cases h with ⟨e, hsend, _⟩ | ⟨a, c1, ev1, ev2, hsend, hrest, hev⟩
  · obtain ⟨_, f2, f3, _, _, fev⟩ := sendCommandC_facts hsend
    refine ⟨?_, f3, f2⟩
    intro e' he
    rw [fev e' he]
    rfl
  · obtain ⟨_, f2, f3, _, _, fev⟩ := sendCommandC_facts hsend
    obtain ⟨r1, r2, _, _, rev, _⟩ := read_responseC_facts hrest
    subst hev
    refine ⟨?_, r2.trans f3, r1.trans f2⟩
    intro e' he
    rcases List.mem_append.mp he with he | he
    · rw [fev e' he]
      rfl
    · obtain ⟨s, hs⟩ := rev e' he
      rw [hs]
      rfl

/-- Witness for C3 at a concrete RETR run. -/
theorem retr_no_download_witness :
    (∀ e ∈ ([.ctrlWrite (lc "RETR a.txt\r\n"), .ctrlRead (lc "257 ok\r\n")] :
        List Event), isCtrlEvent e = true) ∧
    (⟨⟨some [], [lc "RETR a.txt\r\n"]⟩, .connected, ⟨lc "."⟩, .passive, none⟩ :
      Client).dataConnectionInfo = cexPwdClient.dataConnectionInfo ∧
    (⟨⟨some [], [lc "RETR a.txt\r\n"]⟩, .connected, ⟨lc "."⟩, .passive, none⟩ :
      Client).currentDataMode = cexPwdClient.currentDataMode :=
  retr_no_download cexPwdClient w0 (lc "a.txt")
    (.ok (lc "257 ok\r\n"))
    ⟨⟨some [], [lc "RETR a.txt\r\n"]⟩, .connected, ⟨lc "."⟩, .passive, none⟩
    [.ctrlWrite (lc "RETR a.txt\r\n"), .ctrlRead (lc "257 ok\r\n")]
    (by decide)


/-- Control events are not establishment events. -/
lemma isEst_of_ctrl {e : Event} (h : isCtrlEvent e = true) : isEst e = false := by
  cases e <;> simp_all [isCtrlEvent, isEst]

/-- Every event of the PASV handler is a control event. -/
lemma handle_pasv_events {c : Client} {r : Except Err Str} {c' : Client}
    {ev : List Event} (h : handle_pasv_command c = some (r, c', ev)) :
    ∀ e ∈ ev, isCtrlEvent e = true := by
  unfold handle_pasv_command at h
  rcases andThen_cases h with ⟨e, hsend, _⟩ | ⟨a, c1, ev1, ev2, hsend, hrest, hev⟩
  · obtain ⟨_, _, _, _, _, fev⟩ := sendCommandC_facts hsend
    intro e' he
    rw [fev e' he]
    rfl
  · obtain ⟨_, _, _, _, _, fev⟩ := sendCommandC_facts hsend
    try dsimp only at hrest
    rcases andThen_cases hrest with ⟨e, hread, _⟩ | ⟨resp, c2, ev3, ev4, hread, hfin, hev2⟩
    · obtain ⟨_, _, _, _, rev, _⟩ := read_responseC_facts hread
      subst hev
      intro e' he
      rcases List.mem_append.mp he with he | he
      · rw [fev e' he]; rfl
      · obtain ⟨s, hs⟩ := rev e' he
        rw [hs]; rfl
    · obtain ⟨_, _, _, _, rev, _⟩ := read_responseC_facts hread
      have hev4 : ev4 = [] := by
        try dsimp only at hfin
        by_cases hb : beginsWith resp (lc "227") = true
        · rw [if_pos hb] at hfin
          cases hpp : parse_pasv_response resp with
          | some info =>
            rw [hpp] at hfin
            simp only [Option.some.injEq, Prod.mk.injEq] at hfin
            exact hfin.2.2.symm
          | none =>
            rw [hpp] at hfin
            simp only [Option.some.injEq, Prod.mk.injEq] at hfin
            exact hfin.2.2.symm
        · rw [if_neg hb] at hfin
          simp only [Option.some.injEq, Prod.mk.injEq] at hfin
          exact hfin.2.2.symm
      subst hev hev2 hev4
      intro e' he
      simp only [List.append_nil] at he
      rcases List.mem_append.mp he with he | he
      · rw [fev e' he]; rfl
      · obtain ⟨s, hs⟩ := rev e' he
        rw [hs]; rfl

/-- Every event of the passive-establishment retry loop is a control event. -/
lemma establish_passive_loop_events :
    ∀ (n : Nat) (c : Client) (r : Except Err DataConnection) (c' : Client)
      (ev : List Event), establish_passive_loop n c = some (r, c', ev) →
      ∀ e ∈ ev, isCtrlEvent e = true := by
  intro n
  induction n with
  | zero =>
    intro c r c' ev h
    simp only [establish_passive_loop, Option.some.injEq, Prod.mk.injEq] at h
    obtain ⟨_, _, h3⟩ := h
    subst h3
    intro e he
    cases he
  | succ m ih =>
    intro c r c' ev h
    simp only [establish_passive_loop] at h
    cases hp : handle_pasv_command c with
    | none => rw [hp] at h; cases h
    | some trip =>
      obtain ⟨res, c1, ev1⟩ := trip
      rw [hp] at h
      have hev1 := handle_pasv_events hp
      cases res with
      | ok response =>
        dsimp only at h
        by_cases hb : beginsWith response (lc "227") = true
        · rw [if_pos hb] at h
          cases hinfo : c1.dataConnectionInfo with
          | some info =>
            rw [hinfo] at h
            simp only [Option.some.injEq, Prod.mk.injEq] at h
            obtain ⟨_, _, h3⟩ := h
            subst h3
            exact hev1
          | none =>
            rw [hinfo] at h
            dsimp only at h
            obtain ⟨ev', hin, hev⟩ := seqEv_cases h
            subst hev
            intro e he
            rcases List.mem_append.mp he with he | he
            · exact hev1 e he
            · exact ih _ _ _ _ hin e he
        · rw [if_neg hb] at h
          by_cases hm : m ≥ 1
          · rw [if_pos hm] at h
            obtain ⟨ev', hin, hev⟩ := seqEv_cases h
            subst hev
            intro e he
            rcases List.mem_append.mp he with he | he
            · exact hev1 e he
            · exact ih _ _ _ _ hin e he
          · rw [if_neg hm] at h
            simp only [Option.some.injEq, Prod.mk.injEq] at h
            obtain ⟨_, _, h3⟩ := h
            subst h3
            exact hev1
      | error e =>
        dsimp only at h
        by_cases hm : m ≥ 1
        · rw [if_pos hm] at h
          obtain ⟨ev', hin, hev⟩ := seqEv_cases h
          subst hev
          intro e' he
          rcases List.mem_append.mp he with he | he
          · exact hev1 e' he
          · exact ih _ _ _ _ hin e' he
        · rw [if_neg hm] at h
          simp only [Option.some.injEq, Prod.mk.injEq] at h
          obtain ⟨_, _, h3⟩ := h
          subst h3
          exact hev1

/-- Every event of the auto-PASV retry loop is a control event. -/
lemma auto_establish_pasv_loop_events :
    ∀ (n : Nat) (c : Client) (r : Except Err Unit) (c' : Client)
      (ev : List Event), auto_establish_pasv_loop n c = some (r, c', ev) →
      ∀ e ∈ ev, isCtrlEvent e = true := by
  intro n
  induction n with
  | zero =>
    intro c r c' ev h
    simp only [auto_establish_pasv_loop, Option.some.injEq, Prod.mk.injEq] at h
    obtain ⟨_, _, h3⟩ := h
    subst h3
    intro e he
    cases he
  | succ m ih =>
    intro c r c' ev h
    simp only [auto_establish_pasv_loop] at h
    cases hp : handle_pasv_command c with
    | none => rw [hp] at h; cases h
    | some trip =>
      obtain ⟨res, c1, ev1⟩ := trip
      rw [hp] at h
      have hev1 := handle_pasv_events hp
      cases res with
      | ok response =>
        dsimp only at h
        by_cases hb : beginsWith response (lc "227") = true
        · rw [if_pos hb] at h
          simp only [Option.some.injEq, Prod.mk.injEq] at h
          obtain ⟨_, _, h3⟩ := h
          subst h3
          exact hev1
        · rw [if_neg hb] at h
          obtain ⟨ev', hin, hev⟩ := seqEv_cases h
          subst hev
          intro e he
          rcases List.mem_append.mp he with he | he
          · exact hev1 e he
          · exact ih _ _ _ _ hin e he
      | error e =>
        dsimp only at h
        obtain ⟨ev', hin, hev⟩ := seqEv_cases h
        subst hev
        intro e' he
        rcases List.mem_append.mp he with he | he
        · exact hev1 e' he
        · exact ih _ _ _ _ hin e' he

/-- Creating the data connection never emits an establishment event: the
Active path only binds a listener and the Passive path only runs control
traffic. -/
lemma establish_data_connection_events {c : Client} {w : World}
    {r : Except Err DataConnection} {c' : Client} {ev : List Event}
    (h : establish_data_connection c w = some (r, c', ev)) :
    ∀ e ∈ ev, isEst e = false := by
  unfold establish_data_connection at h
  cases hm : c.currentDataMode with
  | active =>
    rw [hm] at h
    dsimp only at h
    unfold new_port_mode at h
    by_cases hb : w.bindOk = true
    · rw [if_pos hb] at h
      simp only [Option.some.injEq, Prod.mk.injEq] at h
      obtain ⟨_, _, h3⟩ := h
      subst h3
      intro e he
      rcases List.mem_singleton.mp he with rfl
      rfl
    · rw [if_neg hb] at h
      simp only [Option.some.injEq, Prod.mk.injEq] at h
      obtain ⟨_, _, h3⟩ := h
      subst h3
      intro e he
      cases he
  | passive =>
    rw [hm] at h
    dsimp only at h
    unfold establish_passive_connection at h
    cases hinfo : c.dataConnectionInfo with
    | some info =>
      rw [hinfo] at h
      simp only [Option.some.injEq, Prod.mk.injEq] at h
      obtain ⟨_, _, h3⟩ := h
      subst h3
      intro e he
      cases he
    | none =>
      rw [hinfo] at h
      intro e he
      exact isEst_of_ctrl (establish_passive_loop_events 3 _ _ _ _ h e he)

/-- Every event of the shared PORT-exchange phase is a control event, and the
data-mode fields pass through unchanged unless the reply moves them. -/
lemma port_phase_events {c : Client} {dc : DataConnection}
    {out : Except Err (Option Str)} {c' : Client} {ev : List Event}
    (h : port_phase c dc = some (out, c', ev)) :
    ∀ e ∈ ev, isCtrlEvent e = true := by
  unfold port_phase at h
  by_cases hm : c.currentDataMode = DataMode.active
  · rw [if_pos hm] at h
    cases hg : get_port_command dc with
    | error e =>
      rw [hg] at h
      simp only [Option.some.injEq, Prod.mk.injEq] at h
      obtain ⟨_, _, h3⟩ := h
      subst h3
      intro e' he
      cases he
    | ok portCommand =>
      rw [hg] at h
      rcases andThen_cases h with ⟨e, hsend, _⟩ | ⟨a, c1, ev1, ev2, hsend, hrest, hev⟩
      · obtain ⟨_, _, _, _, _, fev⟩ := sendCommandC_facts hsend
        intro e' he
        rw [fev e' he]; rfl
      · obtain ⟨_, _, _, _, _, fev⟩ := sendCommandC_facts hsend
        try dsimp only at hrest
        rcases andThen_cases hrest with ⟨e, hread, _⟩ |
          ⟨resp, c2, ev3, ev4, hread, hfin, hev2⟩
        · obtain ⟨_, _, _, _, rev, _⟩ := read_responseC_facts hread
          subst hev
          intro e' he
          rcases List.mem_append.mp he with he | he
          · rw [fev e' he]; rfl
          · obtain ⟨s, hs⟩ := rev e' he
            rw [hs]; rfl
        · obtain ⟨_, _, _, _, rev, _⟩ := read_responseC_facts hread
          have hev4 : ev4 = [] := by
            try dsimp only at hfin
            by_cases hb : ¬ beginsWith resp (lc "200") = true
            · rw [if_pos hb] at hfin
              simp only [Option.some.injEq, Prod.mk.injEq] at hfin
              exact hfin.2.2.symm
            · rw [if_neg hb] at hfin
              simp only [Option.some.injEq, Prod.mk.injEq] at hfin
              exact hfin.2.2.symm
          subst hev hev2 hev4
          intro e' he
          simp only [List.append_nil] at he
          rcases List.mem_append.mp he with he | he
          · rw [fev e' he]; rfl
          · obtain ⟨s, hs⟩ := rev e' he
            rw [hs]; rfl
  · rw [if_neg hm] at h
    simp only [Option.some.injEq, Prod.mk.injEq] at h
    obtain ⟨_, _, h3⟩ := h
    subst h3
    intro e he
    cases he

/-- The stream-establishment step emits no event or a single establishment
event, and does not modify the client. -/
lemma establish_stream_cases {c : Client} {dc : DataConnection} {w : World}
    {out : Except Err DataConnection} {c' : Client} {ev : List Event}
    (h : establish_stream c dc w = some (out, c', ev)) :
    c' = c ∧ (ev = [] ∨ ∃ e, ev = [e] ∧ isEst e = true) := by
  unfold establish_stream at h
  by_cases hm : c.currentDataMode = DataMode.active
  · rw [if_pos hm] at h
    cases dc with
    | mk mode =>
      cases mode with
      | active listener st la =>
        cases listener with
        | true =>
          unfold accept_connection at h
          try dsimp only at h
          by_cases hb : w.acceptOk = true
          · rw [if_pos hb] at h
            simp only [Option.some.injEq, Prod.mk.injEq] at h
            obtain ⟨_, h2, h3⟩ := h
            subst h2 h3
            exact ⟨rfl, Or.inr ⟨.dcAccept, rfl, rfl⟩⟩
          · rw [if_neg hb] at h
            simp only [Option.some.injEq, Prod.mk.injEq] at h
            obtain ⟨_, h2, h3⟩ := h
            subst h2 h3
            exact ⟨rfl, Or.inr ⟨.dcAccept, rfl, rfl⟩⟩
        | false =>
          unfold accept_connection at h
          try dsimp only at h
          simp only [Option.some.injEq, Prod.mk.injEq] at h
          obtain ⟨_, h2, h3⟩ := h
          subst h2 h3
          exact ⟨rfl, Or.inl rfl⟩
      | passive st host port =>
        unfold accept_connection at h
        try dsimp only at h
        simp only [Option.some.injEq, Prod.mk.injEq] at h
        obtain ⟨_, h2, h3⟩ := h
        subst h2 h3
        exact ⟨rfl, Or.inl rfl⟩
  · rw [if_neg hm] at h
    cases dc with
    | mk mode =>
      cases mode with
      | passive st host port =>
        unfold connect_to_server at h
        try dsimp only at h
        cases hpa : parseSocketAddr (host ++ ':' :: natStr port) with
        | none =>
          rw [hpa] at h
          simp only [Option.some.injEq, Prod.mk.injEq] at h
          obtain ⟨_, h2, h3⟩ := h
          subst h2 h3
          exact ⟨rfl, Or.inl rfl⟩
        | some addr =>
          rw [hpa] at h
          by_cases hb : w.connectOk = true
          · rw [if_pos hb] at h
            simp only [Option.some.injEq, Prod.mk.injEq] at h
            obtain ⟨_, h2, h3⟩ := h
            subst h2 h3
            exact ⟨rfl, Or.inr ⟨.dcConnect, rfl, rfl⟩⟩
          · rw [if_neg hb] at h
            simp only [Option.some.injEq, Prod.mk.injEq] at h
            obtain ⟨_, h2, h3⟩ := h
            subst h2 h3
            exact ⟨rfl, Or.inr ⟨.dcConnect, rfl, rfl⟩⟩
      | active listener st la =>
        unfold connect_to_server at h
        try dsimp only at h
        simp only [Option.some.injEq, Prod.mk.injEq] at h
        obtain ⟨_, h2, h3⟩ := h
        subst h2 h3
        exact ⟨rfl, Or.inl rfl⟩


/-- An appended list keeps the last element of its nonempty right part. -/
lemma getLast?_append_right {α : Type} {l₁ l₂ : List α} {a : α}
    (h : l₂.getLast? = some a) : (l₁ ++ l₂).getLast? = some a := by
  induction l₁ with
  | nil => exact h
  | cons x xs ih =>
    rw [List.cons_append]
    cases hx : xs ++ l₂ with
    | nil =>
      rcases List.append_eq_nil.mp hx with ⟨-, h2⟩
      subst h2
      cases h
    | cons y ys =>
      rw [hx] at ih
      rw [List.getLast?_cons_cons]
      exact ih

/-- Every list begins with its own `take`. -/
lemma bw_take_self (l : Str) (n : Nat) : beginsWith l (l.take n) = true :=
  beginsWith_iff.mpr (List.take_prefix n l)

/-- A 3-character prefix is recovered by `take 3`. -/
lemma take3_of_bw {raw p : Str} (hb : beginsWith raw p = true)
    (hl : p.length = 3) : raw.take 3 = p := by
  obtain ⟨t, ht⟩ := beginsWith_iff.mp hb
  rw [← ht, ← hl, List.take_left]

/-- A successful `read_line` emits exactly the read of the delivered line. -/
lemma read_line_ok_shape {c : Conn} {line : Str} {c₁ : Conn} {ev : List Event}
    (h : c.read_line = (.ok line, c₁, ev)) : ev = [Event.ctrlRead line] := by
  obtain ⟨st, snt⟩ := c
  cases st with
  | none => simp [Conn.read_line] at h
  | some items =>
    cases items with
    | nil =>
      simp only [Conn.read_line, Prod.mk.injEq, Except.ok.injEq] at h
      exact h.2.2.symm.trans (by rw [h.1])
    | cons it rest =>
      cases it with
      | ln l =>
        simp only [Conn.read_line, Prod.mk.injEq, Except.ok.injEq] at h
        exact h.2.2.symm.trans (by rw [h.1])
      | errLost => simp [Conn.read_line] at h
      | errIo => simp [Conn.read_line] at h

/-- With no expected code recorded, the non-first-line phase of the read loop
never returns successfully: it can only error out or keep looping. -/
lemma readResponseLoop_none_not_ok :
    ∀ (fuel : Nat) (c : Conn) (acc raw : Str) (c' : Conn) (ev : List Event),
      readResponseLoop fuel c acc false none ≠ some (.ok raw, c', ev) := by
  intro fuel
  induction fuel with
  | zero => intro c acc raw c' ev h; cases h
  | succ f ih =>
    intro c acc raw c' ev h
    simp only [readResponseLoop] at h
    cases hrl : c.read_line with
    | mk res rest =>
      obtain ⟨c₁, ev0⟩ := rest
      cases res with
      | error e =>
        rw [hrl] at h
        simp at h
      | ok line =>
        rw [hrl] at h
        dsimp only at h
        rw [if_neg (by decide : ¬ (false = true))] at h
        try dsimp only at h
        obtain ⟨ev', hin, -⟩ := readResponseLoop_cont_cases h
        exact ih _ _ _ _ _ hin

/-- Successful exit of the expected-code phase: the last event is the read of
a line that begins with the expected code, and the accumulator is preserved
as a prefix of the returned text. -/
lemma readResponseLoop_code_ok_last :
    ∀ (fuel : Nat) (c : Conn) (acc code raw : Str) (c' : Conn) (ev : List Event),
      readResponseLoop fuel c acc false (some code) = some (.ok raw, c', ev) →
      ∃ l, ev.getLast? = some (Event.ctrlRead l) ∧ beginsWith l code = true ∧
        acc <+: raw := by
  intro fuel
  induction fuel with
  | zero => intro c acc code raw c' ev h; cases h
  | succ f ih =>
    intro c acc code raw c' ev h
    simp only [readResponseLoop] at h
    cases hrl : c.read_line with
    | mk res rest =>
      obtain ⟨c₁, ev0⟩ := rest
      cases res with
      | error e =>
        rw [hrl] at h
        simp at h
      | ok line =>
        rw [hrl] at h
        dsimp only at h
        rw [if_neg (by decide : ¬ (false = true))] at h
        try dsimp only at h
        have hev0 : ev0 = [Event.ctrlRead line] := read_line_ok_shape hrl
        by_cases hc : line.length ≥ 4 ∧ beginsWith line code = true ∧
            line.get? 3 = some ' '
        · rw [if_pos hc] at h
          simp only [Option.some.injEq, Prod.mk.injEq] at h
          obtain ⟨h1, -, h3⟩ := h
          have hraw : acc ++ line = raw := by simpa using h1
          subst h3 hev0
          exact ⟨line, rfl, hc.2.1, hraw ▸ List.prefix_append acc line⟩
        · rw [if_neg hc] at h
          obtain ⟨ev', hin, hev⟩ := readResponseLoop_cont_cases h
          obtain ⟨l, hlast, hbw, hpre⟩ := ih _ _ _ _ _ _ hin
          subst hev
          exact ⟨l, getLast?_append_right hlast,
            hbw, (List.prefix_append acc line).trans hpre⟩

/-- Successful exit of the whole read loop: the last event is the read of a
line that begins with the first three characters of the returned text. -/
lemma read_response_ok_last {c : Conn} {raw : Str} {c' : Conn} {ev : List Event}
    (h : c.read_response = some (.ok raw, c', ev)) :
    ∃ l, ev.getLast? = some (Event.ctrlRead l) ∧
      beginsWith l (raw.take 3) = true := by
  unfold Conn.read_response at h
  obtain ⟨f, hf⟩ : ∃ f, c.fuel = f + 1 := by
    unfold Conn.fuel
    cases c.stream with
    | none => exact ⟨0, rfl⟩
    | some items => exact ⟨items.length, rfl⟩
  rw [hf] at h
  simp only [readResponseLoop] at h
  cases hrl : c.read_line with
  | mk res rest =>
    obtain ⟨c₁, ev0⟩ := rest
    cases res with
    | error e =>
      rw [hrl] at h
      simp at h
    | ok line =>
      rw [hrl] at h
      dsimp only at h
      rw [if_pos trivial] at h
      have hev0 : ev0 = [Event.ctrlRead line] := read_line_ok_shape hrl
      by_cases h4 : line.length ≥ 4
      · rw [if_pos h4] at h
        by_cases hsp : (line.get? 3).getD ' ' = ' '
        · rw [if_pos hsp] at h
          simp only [Option.some.injEq, Prod.mk.injEq] at h
          obtain ⟨h1, -, h3⟩ := h
          have hraw : line = raw := by simpa using h1
          subst h3 hev0
          exact ⟨line, rfl, hraw ▸ bw_take_self line 3⟩
        · rw [if_neg hsp] at h
          by_cases hdsh : (line.get? 3).getD ' ' = '-'
          · rw [if_pos hdsh] at h
            obtain ⟨ev', hin, hev⟩ := readResponseLoop_cont_cases h
            obtain ⟨l, hlast, hbw, hpre⟩ :=
              readResponseLoop_code_ok_last f c₁ _ _ _ _ _ hin
            subst hev hev0
            refine ⟨l, getLast?_append_right hlast, ?_⟩
            obtain ⟨t, ht⟩ := by simpa using hpre
            have htake : raw.take 3 = line.take 3 := by
              rw [← ht, List.take_append_eq_append_take,
                Nat.sub_eq_zero_of_le (by omega), List.take_zero,
                List.append_nil]
            rw [htake]
            exact hbw
          · rw [if_neg hdsh] at h
            obtain ⟨ev', hin, -⟩ := readResponseLoop_cont_cases h
            exact absurd hin (readResponseLoop_none_not_ok f c₁ _ raw c' ev')
      · rw [if_neg h4] at h
        obtain ⟨ev', hin, -⟩ := readResponseLoop_cont_cases h
        exact absurd hin (readResponseLoop_none_not_ok f c₁ _ raw c' ev')

/-- Client-level form of `read_response_ok_last`. -/
lemma read_responseC_ok_last {c : Client} {raw : Str} {c' : Client}
    {ev : List Event} (h : read_responseC c = some (.ok raw, c', ev)) :
    ∃ l, ev.getLast? = some (Event.ctrlRead l) ∧
      beginsWith l (raw.take 3) = true := by
  unfold read_responseC at h
  cases hc : c.connection.read_response with
  | none => rw [hc] at h; cases h
  | some trip =>
    obtain ⟨res, conn', evr⟩ := trip
    rw [hc] at h
    cases res with
    | error e =>
      dsimp only at h
      simp at h
    | ok raw0 =>
      dsimp only at h
      have hre : raw0 = raw ∧ evr = ev := by
        cases hp : parse_response raw0 with
        | ok parsed =>
          rw [hp] at h
          simp only [Option.some.injEq, Prod.mk.injEq, Except.ok.injEq] at h
          exact ⟨h.1, h.2.2⟩
        | error e2 =>
          rw [hp] at h
          simp only [Option.some.injEq, Prod.mk.injEq, Except.ok.injEq] at h
          exact ⟨h.1, h.2.2⟩
      obtain ⟨h1, h2⟩ := hre
      subst h1 h2
      exact read_response_ok_last hc

/-- A successful send emits exactly the write of the CRLF-terminated
command. -/
lemma sendCommandC_ok_shape {c : Client} {cmd : Str} {c' : Client}
    {ev : List Event} (h : sendCommandC c cmd = some (.ok (), c', ev)) :
    ev = [Event.ctrlWrite (fmtCRLF cmd)] := by
  unfold sendCommandC Conn.send_command at h
  cases hs : c.connection.stream with
  | none =>
    rw [hs] at h
    simp at h
  | some items =>
    rw [hs] at h
    dsimp only at h
    simp only [Option.some.injEq, Prod.mk.injEq] at h
    exact h.2.2.symm

/-- An establishment-free event list admits no split at an establishment
event. -/
lemma no_est_split {ev xs ys : List Event} {e : Event}
    (hfree : ∀ x ∈ ev, isEst x = false) (hev : ev = xs ++ e :: ys)
    (he : isEst e = true) : False := by
  have hmem : e ∈ ev := by
    rw [hev]
    exact List.mem_append.mpr (Or.inr (List.mem_cons_self e ys))
  rw [hfree e hmem] at he
  cases he

/-- A list of the shape establishment-free prefix, single establishment
event, establishment-free suffix splits at an establishment event only at
that middle event. -/
lemma est_split {P T xs ys : List Event} {e₀ e : Event}
    (hP : ∀ x ∈ P, isEst x = false) (hT : ∀ x ∈ T, isEst x = false)
    (he : isEst e = true) (hsplit : P ++ e₀ :: T = xs ++ e :: ys) :
    xs = P ∧ e = e₀ ∧ ys = T := by
  induction P generalizing xs with
  | nil =>
    cases xs with
    | nil =>
      simp only [List.nil_append] at hsplit
      injection hsplit with h1 h2
      exact ⟨rfl, h1.symm, h2.symm⟩
    | cons x xs2 =>
      simp only [List.nil_append, List.cons_append] at hsplit
      injection hsplit with h1 h2
      have hmem : e ∈ T := by
        rw [h2]
        exact List.mem_append.mpr (Or.inr (List.mem_cons_self e ys))
      rw [hT e hmem] at he
      cases he
  | cons p P2 ih =>
    cases xs with
    | nil =>
      simp only [List.cons_append, List.nil_append] at hsplit
      injection hsplit with h1 h2
      have := hP p (List.mem_cons_self p P2)
      rw [h1, he] at this
      cases this
    | cons x xs2 =>
      simp only [List.cons_append] at hsplit
      injection hsplit with h1 h2
      obtain ⟨hx, he2, hy⟩ := ih (fun z hz => hP z (List.mem_cons_of_mem p hz)) h2
      exact ⟨by rw [hx, ← h1], he2, hy⟩


/-- The upload step always emits exactly one data-send event. -/
lemma upload_events (w : World) :
    (upload_file_with_progress w).2 = [Event.dcSend] := by
  unfold upload_file_with_progress
  by_cases hu : w.uploadOk = true
  · rw [if_pos hu]
  · rw [if_neg hu]

/-- The listing step always emits exactly one data-receive event. -/
lemma listing_events (w : World) :
    (read_directory_listing w).2 = [Event.dcRecv] := by
  cases hl : w.listing <;> simp [read_directory_listing, hl]

/-- Splitting a STOR run at any establishment event: the prefix before the
establishment ends with the read of a line beginning `150` and contains the
write of the STOR command. -/
lemma stor_est_split {c : Client} {w : World} {f : Str} {r : Except Err Str}
    {c' : Client} {ev : List Event}
    (h : handle_stor_command c w f = some (r, c', ev)) :
    ∀ xs e ys, ev = xs ++ e :: ys → isEst e = true →
      (∃ l, xs.getLast? = some (Event.ctrlRead l) ∧
        beginsWith l (lc "150") = true) ∧
      Event.ctrlWrite (fmtCRLF (lc "STOR " ++ f)) ∈ xs := by
  intro xs e ys hsplit he
  simp only [handle_stor_command] at h
  cases hv : validate_upload_file w (c.config.localDirectory ++ '/' :: f) with
  | error e2 =>
    rw [hv] at h
    try dsimp only at h
    simp only [Option.some.injEq, Prod.mk.injEq] at h
    exact (no_est_split (fun x hx => by rw [← h.2.2] at hx; cases hx)
      hsplit he).elim
  | ok u =>
    rw [hv] at h
    try dsimp only at h
    rcases andThen_cases h with ⟨e2, hedc, -⟩ | ⟨dc, c1, ev1, evR, hedc, h2, hev⟩
    · exact (no_est_split (establish_data_connection_events hedc) hsplit he).elim
    · have hfree1 := establish_data_connection_events hedc
      subst hev
      rcases andThen_cases h2 with ⟨e2, hpp, -⟩ |
        ⟨early, c4, ev3, evR2, hpp, h3, hev2⟩
      · refine (no_est_split ?_ hsplit he).elim
        intro x hx
        rcases List.mem_append.mp hx with hx | hx
        · exact hfree1 x hx
        · exact isEst_of_ctrl (port_phase_events hpp x hx)
      · have hfree2 := port_phase_events hpp
        subst hev2
        cases early with
        | some failText =>
          simp only [Option.some.injEq, Prod.mk.injEq] at h3
          refine (no_est_split ?_ hsplit he).elim
          intro x hx
          rcases List.mem_append.mp hx with hx | hx
          · exact hfree1 x hx
          rcases List.mem_append.mp hx with hx | hx
          · exact isEst_of_ctrl (hfree2 x hx)
          · rw [← h3.2.2] at hx; cases hx
        | none =>
          try dsimp only at h3
          rcases andThen_cases h3 with ⟨e2, hsend, -⟩ |
            ⟨u2, c5, ev5, evR3, hsend, h4, hev3⟩
          · obtain ⟨-, -, -, -, -, fev⟩ := sendCommandC_facts hsend
            refine (no_est_split ?_ hsplit he).elim
            intro x hx
            rcases List.mem_append.mp hx with hx | hx
            · exact hfree1 x hx
            rcases List.mem_append.mp hx with hx | hx
            · exact isEst_of_ctrl (hfree2 x hx)
            · rw [fev x hx]; rfl
          · obtain ⟨⟩ := u2
            have hev5 : ev5 = [Event.ctrlWrite (fmtCRLF (lc "STOR " ++ f))] :=
              sendCommandC_ok_shape hsend
            subst hev3
            rcases andThen_cases h4 with ⟨e2, hread, -⟩ |
              ⟨resp, c6, ev7, evR4, hread, h5, hev4⟩
            · obtain ⟨-, -, -, -, rev, -⟩ := read_responseC_facts hread
              refine (no_est_split ?_ hsplit he).elim
              intro x hx
              rcases List.mem_append.mp hx with hx | hx
              · exact hfree1 x hx
              rcases List.mem_append.mp hx with hx | hx
              · exact isEst_of_ctrl (hfree2 x hx)
              rcases List.mem_append.mp hx with hx | hx
              · rw [hev5] at hx; rcases List.mem_singleton.mp hx with rfl; rfl
              · obtain ⟨s, hs⟩ := rev x hx; rw [hs]; rfl
            · obtain ⟨-, -, -, -, rev, -⟩ := read_responseC_facts hread
              subst hev4
              by_cases hbw : beginsWith resp (lc "150") = true
              · rw [if_neg (not_not_intro hbw)] at h5
                obtain ⟨l, hlast, hbwl⟩ := read_responseC_ok_last hread
                have htake : resp.take 3 = lc "150" := take3_of_bw hbw rfl
                rw [htake] at hbwl
                have hP : ∀ x ∈ ev1 ++ (ev3 ++ (ev5 ++ ev7)), isEst x = false := by
                  intro x hx
                  rcases List.mem_append.mp hx with hx | hx
                  · exact hfree1 x hx
                  rcases List.mem_append.mp hx with hx | hx
                  · exact isEst_of_ctrl (hfree2 x hx)
                  rcases List.mem_append.mp hx with hx | hx
                  · rw [hev5] at hx; rcases List.mem_singleton.mp hx with rfl; rfl
                  · obtain ⟨s, hs⟩ := rev x hx; rw [hs]; rfl
                have hconc : ∀ xs2, xs2 = ev1 ++ (ev3 ++ (ev5 ++ ev7)) →
                    (∃ l2, xs2.getLast? = some (Event.ctrlRead l2) ∧
                      beginsWith l2 (lc "150") = true) ∧
                    Event.ctrlWrite (fmtCRLF (lc "STOR " ++ f)) ∈ xs2 := by
                  intro xs2 hxs2
                  subst hxs2
                  refine ⟨⟨l, ?_, hbwl⟩, ?_⟩
                  · exact getLast?_append_right (getLast?_append_right
                      (getLast?_append_right hlast))
                  · refine List.mem_append.mpr (Or.inr ?_)
                    refine List.mem_append.mpr (Or.inr ?_)
                    refine List.mem_append.mpr (Or.inl ?_)
                    rw [hev5]
                    exact List.mem_singleton.mpr rfl
                rcases andThen_cases h5 with ⟨e2, hest, -⟩ |
                  ⟨dc2, c7, ev9, ev10, hest, h6, hev6⟩
                · obtain ⟨-, hcase⟩ := establish_stream_cases hest
                  rcases hcase with hnil | ⟨e0, he0, hee⟩
                  · subst hnil
                    refine (no_est_split ?_ hsplit he).elim
                    intro x hx
                    rcases List.mem_append.mp hx with hx | hx
                    · exact hfree1 x hx
                    rcases List.mem_append.mp hx with hx | hx
                    · exact isEst_of_ctrl (hfree2 x hx)
                    rcases List.mem_append.mp hx with hx | hx
                    · rw [hev5] at hx; rcases List.mem_singleton.mp hx with rfl
                      rfl
                    rcases List.mem_append.mp hx with hx | hx
                    · obtain ⟨s, hs⟩ := rev x hx; rw [hs]; rfl
                    · cases hx
                  · subst he0
                    have hsplit2 : (ev1 ++ (ev3 ++ (ev5 ++ ev7))) ++
                        e0 :: ([] : List Event) = xs ++ e :: ys := by
                      rw [← hsplit]
                      simp [List.append_assoc]
                    obtain ⟨hxs, -, -⟩ :=
                      est_split hP (fun x hx => by cases hx) he hsplit2
                    exact hconc xs hxs
                · obtain ⟨-, hcase⟩ := establish_stream_cases hest
                  have h10 : ∀ x ∈ ev10, isEst x = false := by
                    cases hu : upload_file_with_progress w with
                    | mk res2 evU =>
                      have hevU : evU = [Event.dcSend] := by
                        have hue := upload_events w
                        rw [hu] at hue
                        exact hue
                      cases res2 with
                      | ok u3 =>
                        rw [hu] at h6
                        try dsimp only at h6
                        obtain ⟨ev11, hrc, hev11⟩ := seqEv_cases h6
                        obtain ⟨-, -, -, -, rev2, -⟩ := read_responseC_facts hrc
                        subst hev11
                        intro x hx
                        rcases List.mem_append.mp hx with hx | hx
                        · rw [hevU] at hx
                          rcases List.mem_singleton.mp hx with rfl
                          rfl
                        · obtain ⟨s, hs⟩ := rev2 x hx; rw [hs]; rfl
                      | error e3 =>
                        rw [hu] at h6
                        try dsimp only at h6
                        cases hrc : read_responseC c7 with
                        | none => rw [hrc] at h6; cases h6
                        | some trip2 =>
                          obtain ⟨res3, c8, ev12⟩ := trip2
                          rw [hrc] at h6
                          simp only [Option.some.injEq, Prod.mk.injEq] at h6
                          obtain ⟨-, -, -, -, rev2, -⟩ := read_responseC_facts hrc
                          intro x hx
                          rw [← h6.2.2] at hx
                          rcases List.mem_append.mp hx with hx | hx
                          · rw [hevU] at hx
                            rcases List.mem_singleton.mp hx with rfl
                            rfl
                          · obtain ⟨s, hs⟩ := rev2 x hx; rw [hs]; rfl
                  rcases hcase with hnil | ⟨e0, he0, hee⟩
                  · refine (no_est_split ?_ hsplit he).elim
                    intro x hx
                    rcases List.mem_append.mp hx with hx | hx
                    · exact hfree1 x hx
                    rcases List.mem_append.mp hx with hx | hx
                    · exact isEst_of_ctrl (hfree2 x hx)
                    rcases List.mem_append.mp hx with hx | hx
                    · rw [hev5] at hx; rcases List.mem_singleton.mp hx with rfl
                      rfl
                    rcases List.mem_append.mp hx with hx | hx
                    · obtain ⟨s, hs⟩ := rev x hx; rw [hs]; rfl
                    rw [hev6, hnil] at hx
                    rcases List.mem_append.mp hx with hx | hx
                    · cases hx
                    · exact h10 x hx
                  · have hsplit2 : (ev1 ++ (ev3 ++ (ev5 ++ ev7))) ++ e0 :: ev10 =
                        xs ++ e :: ys := by
                      rw [← hsplit, hev6, he0]
                      simp [List.append_assoc]
                    obtain ⟨hxs, -, -⟩ := est_split hP h10 he hsplit2
                    exact hconc xs hxs
              · rw [if_pos hbw] at h5
                simp only [Option.some.injEq, Prod.mk.injEq] at h5
                refine (no_est_split ?_ hsplit he).elim
                intro x hx
                rcases List.mem_append.mp hx with hx | hx
                · exact hfree1 x hx
                rcases List.mem_append.mp hx with hx | hx
                · exact isEst_of_ctrl (hfree2 x hx)
                rcases List.mem_append.mp hx with hx | hx
                · rw [hev5] at hx; rcases List.mem_singleton.mp hx with rfl; rfl
                rcases List.mem_append.mp hx with hx | hx
                · obtain ⟨s, hs⟩ := rev x hx; rw [hs]; rfl
                · rw [← h5.2.2] at hx; cases hx


/-- Splitting a LIST run at any establishment event: the event immediately
before the establishment is the write of the LIST command, not the read of a
preliminary reply. -/
lemma list_est_split {c : Client} {w : World} {r : Except Err Str}
    {c' : Client} {ev : List Event}
    (h : handle_list_command c w = some (r, c', ev)) :
    ∀ xs e ys, ev = xs ++ e :: ys → isEst e = true →
      xs.getLast? = some (Event.ctrlWrite (lc "LIST\r\n")) := by
  intro xs e ys hsplit he
  simp only [handle_list_command] at h
  rcases andThen_cases h with ⟨e2, hauto, -⟩ | ⟨u1, c1, evA, evR, hauto, h2, hev⟩
  · refine (no_est_split ?_ hsplit he).elim
    by_cases hinfo : c.dataConnectionInfo = none
    · rw [if_pos hinfo] at hauto
      cases haut : auto_establish_pasv_loop 3 c with
      | none => rw [haut] at hauto; cases hauto
      | some trip =>
        obtain ⟨res0, c0, ev0⟩ := trip
        rw [haut] at hauto
        cases res0 with
        | error e3 =>
          try dsimp only at hauto
          simp only [Option.some.injEq, Prod.mk.injEq] at hauto
          intro x hx
          rw [← hauto.2.2] at hx
          exact isEst_of_ctrl (auto_establish_pasv_loop_events 3 _ _ _ _ haut x hx)
        | ok u0 =>
          try dsimp only at hauto
          simp at hauto
    · rw [if_neg hinfo] at hauto
      simp at hauto
  · have hfreeA : ∀ x ∈ evA, isEst x = false := by
      by_cases hinfo : c.dataConnectionInfo = none
      · rw [if_pos hinfo] at hauto
        cases haut : auto_establish_pasv_loop 3 c with
        | none => rw [haut] at hauto; cases hauto
        | some trip =>
          obtain ⟨res0, c0, ev0⟩ := trip
          rw [haut] at hauto
          cases res0 with
          | error e3 =>
            try dsimp only at hauto
            simp at hauto
          | ok u0 =>
            try dsimp only at hauto
            simp only [Option.some.injEq, Prod.mk.injEq] at hauto
            intro x hx
            rw [← hauto.2.2] at hx
            exact isEst_of_ctrl (auto_establish_pasv_loop_events 3 _ _ _ _ haut x hx)
      · rw [if_neg hinfo] at hauto
        simp only [Option.some.injEq, Prod.mk.injEq] at hauto
        intro x hx
        rw [← hauto.2.2] at hx
        cases hx
    subst hev
    rcases andThen_cases h2 with ⟨e2, hedc, -⟩ | ⟨dc, c2, ev1, evR2, hedc, h3, hev2⟩
    · refine (no_est_split ?_ hsplit he).elim
      intro x hx
      rcases List.mem_append.mp hx with hx | hx
      · exact hfreeA x hx
      · exact establish_data_connection_events hedc x hx
    · have hfree1 := establish_data_connection_events hedc
      subst hev2
      rcases andThen_cases h3 with ⟨e2, hpp, -⟩ |
        ⟨early, c5, ev3, evR3, hpp, h4, hev3⟩
      · refine (no_est_split ?_ hsplit he).elim
        intro x hx
        rcases List.mem_append.mp hx with hx | hx
        · exact hfreeA x hx
        rcases List.mem_append.mp hx with hx | hx
        · exact hfree1 x hx
        · exact isEst_of_ctrl (port_phase_events hpp x hx)
      · have hfree2 := port_phase_events hpp
        subst hev3
        cases early with
        | some failText =>
          simp only [Option.some.injEq, Prod.mk.injEq] at h4
          refine (no_est_split ?_ hsplit he).elim
          intro x hx
          rcases List.mem_append.mp hx with hx | hx
          · exact hfreeA x hx
          rcases List.mem_append.mp hx with hx | hx
          · exact hfree1 x hx
          rcases List.mem_append.mp hx with hx | hx
          · exact isEst_of_ctrl (hfree2 x hx)
          · rw [← h4.2.2] at hx; cases hx
        | none =>
          try dsimp only at h4
          rcases andThen_cases h4 with ⟨e2, hsend, -⟩ |
            ⟨u2, c6, ev5, evR4, hsend, h5, hev4⟩
          · obtain ⟨-, -, -, -, -, fev⟩ := sendCommandC_facts hsend
            refine (no_est_split ?_ hsplit he).elim
            intro x hx
            rcases List.mem_append.mp hx with hx | hx
            · exact hfreeA x hx
            rcases List.mem_append.mp hx with hx | hx
            · exact hfree1 x hx
            rcases List.mem_append.mp hx with hx | hx
            · exact isEst_of_ctrl (hfree2 x hx)
            · rw [fev x hx]; rfl
          · obtain ⟨⟩ := u2
            have hev5 : ev5 = [Event.ctrlWrite (lc "LIST\r\n")] := by
              have hs := sendCommandC_ok_shape hsend
              rw [show fmtCRLF (lc "LIST") = lc "LIST\r\n" by decide] at hs
              exact hs
            subst hev4
            have hP : ∀ x ∈ evA ++ (ev1 ++ (ev3 ++ ev5)), isEst x = false := by
              intro x hx
              rcases List.mem_append.mp hx with hx | hx
              · exact hfreeA x hx
              rcases List.mem_append.mp hx with hx | hx
              · exact hfree1 x hx
              rcases List.mem_append.mp hx with hx | hx
              · exact isEst_of_ctrl (hfree2 x hx)
              · rw [hev5] at hx; rcases List.mem_singleton.mp hx with rfl; rfl
            have hconc : ∀ xs2, xs2 = evA ++ (ev1 ++ (ev3 ++ ev5)) →
                xs2.getLast? = some (Event.ctrlWrite (lc "LIST\r\n")) := by
              intro xs2 hxs2
              subst hxs2
              refine getLast?_append_right (getLast?_append_right
                (getLast?_append_right ?_))
              rw [hev5]
              rfl
            rcases andThen_cases h5 with ⟨e2, hest, -⟩ |
              ⟨dc2, c7, ev9, ev10, hest, h6, hev6⟩
            · obtain ⟨-, hcase⟩ := establish_stream_cases hest
              rcases hcase with hnil | ⟨e0, he0, hee⟩
              · refine (no_est_split ?_ hsplit he).elim
                intro x hx
                rcases List.mem_append.mp hx with hx | hx
                · exact hfreeA x hx
                rcases List.mem_append.mp hx with hx | hx
                · exact hfree1 x hx
                rcases List.mem_append.mp hx with hx | hx
                · exact isEst_of_ctrl (hfree2 x hx)
                rcases List.mem_append.mp hx with hx | hx
                · rw [hev5] at hx; rcases List.mem_singleton.mp hx with rfl; rfl
                · rw [hnil] at hx; cases hx
              · have hsplit2 : (evA ++ (ev1 ++ (ev3 ++ ev5))) ++
                    e0 :: ([] : List Event) = xs ++ e :: ys := by
                  rw [← hsplit, he0]
                  simp [List.append_assoc]
                obtain ⟨hxs, -, -⟩ :=
                  est_split hP (fun x hx => by cases hx) he hsplit2
                exact hconc xs hxs
            · obtain ⟨-, hcase⟩ := establish_stream_cases hest
              have h10 : ∀ x ∈ ev10, isEst x = false := by
                cases hl : read_directory_listing w with
                | mk res2 evL =>
                  have hevL : evL = [Event.dcRecv] := by
                    have hle := listing_events w
                    rw [hl] at hle
                    exact hle
                  cases res2 with
                  | ok entries =>
                    rw [hl] at h6
                    try dsimp only at h6
                    obtain ⟨ev11, hrc, hev11⟩ := seqEv_cases h6
                    obtain ⟨-, -, -, -, rev2, -⟩ := read_responseC_facts hrc
                    subst hev11
                    intro x hx
                    rcases List.mem_append.mp hx with hx | hx
                    · rw [hevL] at hx
                      rcases List.mem_singleton.mp hx with rfl
                      rfl
                    · obtain ⟨s, hs⟩ := rev2 x hx; rw [hs]; rfl
                  | error e3 =>
                    rw [hl] at h6
                    try dsimp only at h6
                    cases hrc : read_responseC c7 with
                    | none => rw [hrc] at h6; cases h6
                    | some trip2 =>
                      obtain ⟨res3, c8, ev12⟩ := trip2
                      rw [hrc] at h6
                      simp only [Option.some.injEq, Prod.mk.injEq] at h6
                      obtain ⟨-, -, -, -, rev2, -⟩ := read_responseC_facts hrc
                      intro x hx
                      rw [← h6.2.2] at hx
                      rcases List.mem_append.mp hx with hx | hx
                      · rw [hevL] at hx
                        rcases List.mem_singleton.mp hx with rfl
                        rfl
                      · obtain ⟨s, hs⟩ := rev2 x hx; rw [hs]; rfl
              rcases hcase with hnil | ⟨e0, he0, hee⟩
              · refine (no_est_split ?_ hsplit he).elim
                intro x hx
                rcases List.mem_append.mp hx with hx | hx
                · exact hfreeA x hx
                rcases List.mem_append.mp hx with hx | hx
                · exact hfree1 x hx
                rcases List.mem_append.mp hx with hx | hx
                · exact isEst_of_ctrl (hfree2 x hx)
                rcases List.mem_append.mp hx with hx | hx
                · rw [hev5] at hx; rcases List.mem_singleton.mp hx with rfl; rfl
                rw [hev6, hnil] at hx
                rcases List.mem_append.mp hx with hx | hx
                · cases hx
                · exact h10 x hx
              · have hsplit2 : (evA ++ (ev1 ++ (ev3 ++ ev5))) ++ e0 :: ev10 =
                    xs ++ e :: ys := by
                  rw [← hsplit, hev6, he0]
                  simp [List.append_assoc]
                obtain ⟨hxs, -, -⟩ := est_split hP h10 he hsplit2
                exact hconc xs hxs

/-- A RETR run is pure control traffic: no establishment event ever occurs. -/
lemma retr_est_free {c : Client} {w : World} {f : Str} {r : Except Err Str}
    {c' : Client} {ev : List Event}
    (h : execute_command c w (.retr f) = some (r, c', ev)) :
    ∀ e ∈ ev, isEst e = false := by
  simp only [execute_command] at h
  rcases andThen_cases h with ⟨e2, hsend, -⟩ | ⟨u1, c1, ev1, ev2, hsend, h2, hev⟩
  · obtain ⟨-, -, -, -, -, fev⟩ := sendCommandC_facts hsend
    intro x hx
    rw [fev x hx]
    rfl
  · obtain ⟨-, -, -, -, -, fev⟩ := sendCommandC_facts hsend
    obtain ⟨-, -, -, -, rev, -⟩ := read_responseC_facts h2
    subst hev
    intro x hx
    rcases List.mem_append.mp hx with hx | hx
    · rw [fev x hx]; rfl
    · obtain ⟨s, hs⟩ := rev x hx; rw [hs]; rfl


/-- C2 (corrected): only STOR checks the preliminary reply before
establishing the data stream.  At any establishment event (accept or connect)
in a STOR run, the preceding trace ends with the read of a line beginning
`150` and contains the write of the STOR command.  In a LIST run the event
immediately before any establishment event is the write of the LIST command
itself: no preliminary reply is read before the stream is established.  A
RETR run never performs any data-stream establishment at all. -/
theorem transfer_preliminary_ordering (c : Client) (w : World) (f : Str) :
    (∀ r c' ev, execute_command c w (.stor f) = some (r, c', ev) →
      ∀ xs e ys, ev = xs ++ e :: ys → isEst e = true →
        (∃ l, xs.getLast? = some (Event.ctrlRead l) ∧
          beginsWith l (lc "150") = true) ∧
        Event.ctrlWrite (fmtCRLF (lc "STOR " ++ f)) ∈ xs) ∧
    (∀ r c' ev, execute_command c w FtpCommand.list = some (r, c', ev) →
      ∀ xs e ys, ev = xs ++ e :: ys → isEst e = true →
        xs.getLast? = some (Event.ctrlWrite (lc "LIST\r\n"))) ∧
    (∀ r c' ev, execute_command c w (.retr f) = some (r, c', ev) →
      ∀ e ∈ ev, isEst e = false) := by
  refine ⟨?_, ?_, ?_⟩
  · intro r c' ev h
    exact stor_est_split h
  · intro r c' ev h
    exact list_est_split h
  · intro r c' ev h
    exact retr_est_free h

/-- C2 counterexample: in a Passive-mode LIST run the data stream is
connected immediately after the LIST write; the establishment event is
preceded by the write — not by the read of a `150` preliminary reply, which
only happens after the listing has been received. -/
theorem transfer_no_preliminary_cex :
    (execute_command cexListClient w0 FtpCommand.list).map (fun t => t.2.2) =
      some [Event.ctrlWrite (lc "LIST\r\n"), Event.dcConnect, Event.dcRecv,
        Event.ctrlRead (lc "150 ok\r\n")] ∧
    isEst Event.dcConnect = true ∧
    (∀ l, ¬ (([Event.ctrlWrite (lc "LIST\r\n")] : List Event).getLast? =
      some (Event.ctrlRead l) ∧ beginsWith l (lc "150") = true)) := by
  refine ⟨by decide, rfl, ?_⟩
  intro l hl
  simp at hl

/-- Witness for the corrected C2 theorem at a concrete Passive-mode STOR run
whose establishment event is the `dcConnect` at position 2. -/
theorem transfer_preliminary_ordering_witness :
    (∃ l, ([Event.ctrlWrite (lc "STOR a.txt\r\n"),
        Event.ctrlRead (lc "150 ok\r\n")] : List Event).getLast? =
        some (Event.ctrlRead l) ∧ beginsWith l (lc "150") = true) ∧
    Event.ctrlWrite (fmtCRLF (lc "STOR " ++ lc "a.txt")) ∈
      [Event.ctrlWrite (lc "STOR a.txt\r\n"),
        Event.ctrlRead (lc "150 ok\r\n")] :=
  (transfer_preliminary_ordering cexListClient w0 (lc "a.txt")).1
    (.ok (lc "226 done\r\n")) cexStorAfter
    [Event.ctrlWrite (lc "STOR a.txt\r\n"), Event.ctrlRead (lc "150 ok\r\n"),
      Event.dcConnect, Event.dcSend, Event.ctrlRead (lc "226 done\r\n")]
    (by decide)
    [Event.ctrlWrite (lc "STOR a.txt\r\n"), Event.ctrlRead (lc "150 ok\r\n")]
    Event.dcConnect
    [Event.dcSend, Event.ctrlRead (lc "226 done\r\n")]
    (by decide) (by decide)

end RaxFtp
